import Mathlib

/-!
Shallow embedding of `src/lib/parser.ts` (lexer, recursive-descent parser,
pure arithmetic evaluator, tree-walking interpreter) of the parse-and-fix
repository, together with theorems settling the frozen claims.

Modelling conventions:
- JavaScript numbers are idealised as rationals (`Rat`); the special float
  values are modelled by dedicated `Value` constructors (`nan`) where a
  modelled code path can produce them.  No claim exercises float rounding,
  `Infinity`, or string/number coercion, and the places where the model
  falls back to `Value.nan` for an unmodelled JS float are marked.
- Strings are Lean `String`s; a source position is the UTF-16-agnostic
  character index (all modelled inputs are ASCII).
- The parser and interpreter recursion is not structural on the input
  (the interpreter looks function bodies up in a table), so both are
  defined with an explicit fuel parameter: `none` means the recursion
  depth bound was exceeded.  The TypeScript functions have no such bound;
  a run of the source terminates exactly when some fuel suffices here,
  and diverges when no fuel does.
- JS objects are modelled as finite field maps (`List (String × Field)`);
  a missing object property is a missing key, matching `undefined`.
-/

namespace MiniC

/-- The single-quote character, written via its code point. -/
def squote : Char := Char.ofNat 39

/-- The backslash character. -/
def bslash : Char := Char.ofNat 92

/-- Characters matched by the JS `\s` class / `String.prototype.trim`
(ASCII fragment; all modelled inputs are ASCII). -/
def isSpaceJS (c : Char) : Bool :=
  c = ' ' || c = '\t' || c = '\n' || c = '\r' || c = Char.ofNat 11 || c = Char.ofNat 12

/-- `String.prototype.trim` on a character list. -/
def trimJS (l : List Char) : List Char :=
  ((l.dropWhile isSpaceJS).reverse.dropWhile isSpaceJS).reverse

/-- Token kinds, exactly the `TokenType` union of the source. -/
inductive TokenType where
  | NUMBER | OPERATOR | LPAREN | RPAREN | EOF | INVALID | KEYWORD
  | IDENTIFIER | SEMICOLON | LBRACE | RBRACE | COMMA | ASSIGN
  | COMPARISON | LOGICAL | INCREMENT | DECREMENT | COMPOUND_ASSIGN
  | LBRACKET | RBRACKET | STRING | CHAR | PREPROCESSOR | DOT | ARROW
  | AMPERSAND
deriving DecidableEq

/-- `interface Token` of the source. -/
structure Token where
  type : TokenType
  value : String
  position : Nat
deriving DecidableEq

/-- The reserved-keyword set of `Lexer.keywords`. -/
def keywords : List String :=
  ["int", "float", "char", "void", "if", "else", "while", "for",
   "return", "break", "continue", "struct", "const", "do", "switch",
   "case", "default", "double", "long", "short", "unsigned", "signed",
   "sizeof", "static", "extern", "auto", "register", "enum", "union",
   "typedef", "volatile", "goto"]

/-- The JS `/\d/` test. -/
def isDigitJS (c : Char) : Bool := '0' ≤ c && c ≤ '9'

/-- The JS `/[a-zA-Z_]/` test (identifier start). -/
def isIdentStart (c : Char) : Bool :=
  ('a' ≤ c && c ≤ 'z') || ('A' ≤ c && c ≤ 'Z') || c = '_'

/-- The JS `/[a-zA-Z0-9_]/` test (identifier continuation). -/
def isIdentChar (c : Char) : Bool := isIdentStart c || isDigitJS c

/-- Number of characters `Lexer.readString` consumes after the opening
quote: an escape (backslash plus following char) is kept together, a
closing quote is consumed, an unterminated literal consumes to the end. -/
def strLitCount : List Char → Nat
  | [] => 0
  | c :: r =>
    if c = '"' then 1
    else if c = bslash then
      match r with
      | [] => 1
      | _ :: r2 => 2 + strLitCount r2
    else 1 + strLitCount r

/-- Number of characters `Lexer.readChar` consumes after the opening
quote (no escape handling, per the source). -/
def charLitCount : List Char → Nat
  | [] => 0
  | c :: r => if c = squote then 1 else 1 + charLitCount r

/-- Number of characters the block-comment loop consumes after `/*`.
The source loop runs while `position < length - 1`, so with fewer than
two characters left it stops, leaving a final character untokenised. -/
def blkCount : List Char → Nat
  | a :: b :: r => if a = '*' && b = '/' then 2 else 1 + blkCount (b :: r)
  | _ => 0

/-- Number of characters `Lexer.readNumber` consumes from the current
position on: digits, with at most one decimal point. -/
def numCount : Bool → List Char → Nat
  | _, [] => 0
  | hasDot, c :: r =>
    if isDigitJS c then 1 + numCount hasDot r
    else if c = '.' && !hasDot then 1 + numCount true r
    else 0

/-- One iteration of the `Lexer.tokenize` loop at position `pos` looking
at character `c` with `cs` following: returns the emitted token (none for
skipped input) and the characters remaining after the iteration.  The
branch order matches the source exactly.  The second component is the
number of following characters (beyond `c` itself) the iteration
consumed; the loop continues at `cs.drop` of it. -/
def lexStep (pos : Nat) (c : Char) (cs : List Char) : Option Token × Nat :=
  if isSpaceJS c then (none, 0)
  else if c = '#' then
    (some ⟨.PREPROCESSOR, String.mk ('#' :: cs.takeWhile (fun ch => ch != '\n')), pos⟩,
     (cs.takeWhile (fun ch => ch != '\n')).length)
  else if c = '"' then
    (some ⟨.STRING, String.mk ('"' :: cs.take (strLitCount cs)), pos⟩, strLitCount cs)
  else if c = squote then
    (some ⟨.CHAR, String.mk (squote :: cs.take (charLitCount cs)), pos⟩, charLitCount cs)
  else if c = '/' && cs.head? = some '/' then
    (none, (cs.takeWhile (fun ch => ch != '\n')).length)
  else if c = '/' && cs.head? = some '*' then
    (none, 1 + blkCount (cs.drop 1))
  else if isDigitJS c then
    (some ⟨.NUMBER, String.mk (c :: cs.take (numCount false cs)), pos⟩, numCount false cs)
  else if isIdentStart c then
    let ident := String.mk (c :: cs.takeWhile isIdentChar)
    (some ⟨if ident ∈ keywords then .KEYWORD else .IDENTIFIER, ident, pos⟩,
     (cs.takeWhile isIdentChar).length)
  else if c = '+' && cs.head? = some '+' then (some ⟨.INCREMENT, "++", pos⟩, 1)
  else if c = '-' && cs.head? = some '-' then (some ⟨.DECREMENT, "--", pos⟩, 1)
  else if c = '+' && cs.head? = some '=' then (some ⟨.COMPOUND_ASSIGN, "+=", pos⟩, 1)
  else if c = '-' && cs.head? = some '=' then (some ⟨.COMPOUND_ASSIGN, "-=", pos⟩, 1)
  else if c = '*' && cs.head? = some '=' then (some ⟨.COMPOUND_ASSIGN, "*=", pos⟩, 1)
  else if c = '/' && cs.head? = some '=' then (some ⟨.COMPOUND_ASSIGN, "/=", pos⟩, 1)
  else if c = '%' && cs.head? = some '=' then (some ⟨.COMPOUND_ASSIGN, "%=", pos⟩, 1)
  else if c = '-' && cs.head? = some '>' then (some ⟨.ARROW, "->", pos⟩, 1)
  else if c = '=' && cs.head? = some '=' then (some ⟨.COMPARISON, "==", pos⟩, 1)
  else if c = '!' && cs.head? = some '=' then (some ⟨.COMPARISON, "!=", pos⟩, 1)
  else if c = '<' && cs.head? = some '=' then (some ⟨.COMPARISON, "<=", pos⟩, 1)
  else if c = '>' && cs.head? = some '=' then (some ⟨.COMPARISON, ">=", pos⟩, 1)
  else if c = '&' && cs.head? = some '&' then (some ⟨.LOGICAL, "&&", pos⟩, 1)
  else if c = '|' && cs.head? = some '|' then (some ⟨.LOGICAL, "||", pos⟩, 1)
  else if c = '<' then (some ⟨.COMPARISON, "<", pos⟩, 0)
  else if c = '>' then (some ⟨.COMPARISON, ">", pos⟩, 0)
  else if c = '!' then (some ⟨.LOGICAL, "!", pos⟩, 0)
  else if c = '=' then (some ⟨.ASSIGN, "=", pos⟩, 0)
  else if c = '&' then (some ⟨.AMPERSAND, "&", pos⟩, 0)
  else if c = '+' || c = '-' || c = '*' || c = '/' || c = '%' || c = '^' then
    (some ⟨.OPERATOR, String.mk [c], pos⟩, 0)
  else if c = '(' then (some ⟨.LPAREN, String.mk [c], pos⟩, 0)
  else if c = ')' then (some ⟨.RPAREN, String.mk [c], pos⟩, 0)
  else if c = '[' then (some ⟨.LBRACKET, String.mk [c], pos⟩, 0)
  else if c = ']' then (some ⟨.RBRACKET, String.mk [c], pos⟩, 0)
  else if c = '\x7b' then (some ⟨.LBRACE, String.mk [c], pos⟩, 0)
  else if c = '\x7d' then (some ⟨.RBRACE, String.mk [c], pos⟩, 0)
  else if c = ';' then (some ⟨.SEMICOLON, String.mk [c], pos⟩, 0)
  else if c = ',' then (some ⟨.COMMA, String.mk [c], pos⟩, 0)
  else if c = '.' then (some ⟨.DOT, String.mk [c], pos⟩, 0)
  else (some ⟨.INVALID, String.mk [c], pos⟩, 0)

/-- The `Lexer.tokenize` loop: emit tokens until the input is exhausted,
then append the EOF token at the final position.  Each iteration consumes
at least one character, so structural fuel equal to the input length is
exact; the empty fuel-out result is an unreachable artifact of the
embedding (see `tokenizeAux_eof`). -/
def tokenizeAux : Nat → Nat → List Char → List Token
  | _, pos, [] => [⟨.EOF, "", pos⟩]
  | 0, _, _ :: _ => []
  | fuel + 1, pos, c :: cs =>
    (lexStep pos c cs).1.toList ++
      tokenizeAux fuel (pos + ((c :: cs).length - (cs.drop (lexStep pos c cs).2).length))
        (cs.drop (lexStep pos c cs).2)

/-- `new Lexer(input).tokenize()`: the constructor trims the input, and
positions are indices into the trimmed text. -/
def tokenize (s : String) : List Token :=
  tokenizeAux (trimJS s.toList).length 0 (trimJS s.toList)

/-- A function parameter entry `\x7b type; name \x7d` as stored in
`ASTNode.parameters`. -/
structure Param where
  type : String
  name : String
deriving DecidableEq

mutual

/-- `interface ASTNode` of the source: a JS object with a `type` tag and a
finite set of optional properties.  A property that the source leaves
`undefined` is simply absent from the field list. -/
inductive ASTNode where
  | mk (type : String) (fields : List (String × Field))

/-- The possible property payloads of an `ASTNode` object. -/
inductive Field where
  | num (q : Rat)
  | str (s : String)
  | node (n : ASTNode)
  | nodes (l : List ASTNode)
  | params (l : List Param)
  | cases (l : List CaseAlt)
  | bool (b : Bool)

/-- One `\x7b value; body \x7d` entry of a switch node `cases` list. -/
inductive CaseAlt where
  | mk (value : ASTNode) (body : List ASTNode)

end

/-- The `type` tag of a node. -/
def ASTNode.typeOf : ASTNode → String
  | .mk t _ => t

/-- Property lookup on a node object (`undefined` when absent). -/
def ASTNode.getF : ASTNode → String → Option Field
  | .mk _ fs, k => (fs.find? (fun p => p.1 == k)).map (fun p => p.2)

def ASTNode.getNum (n : ASTNode) (k : String) : Option Rat :=
  match n.getF k with | some (.num q) => some q | _ => none

def ASTNode.getStr (n : ASTNode) (k : String) : Option String :=
  match n.getF k with | some (.str s) => some s | _ => none

def ASTNode.getNode (n : ASTNode) (k : String) : Option ASTNode :=
  match n.getF k with | some (.node m) => some m | _ => none

def ASTNode.getNodes (n : ASTNode) (k : String) : Option (List ASTNode) :=
  match n.getF k with | some (.nodes l) => some l | _ => none

def ASTNode.getParams (n : ASTNode) (k : String) : Option (List Param) :=
  match n.getF k with | some (.params l) => some l | _ => none

def ASTNode.getCases (n : ASTNode) (k : String) : Option (List CaseAlt) :=
  match n.getF k with | some (.cases l) => some l | _ => none

/-- Helper for optional node-valued properties of object literals. -/
def optNodeField (k : String) : Option ASTNode → List (String × Field)
  | some n => [(k, Field.node n)]
  | none => []

/- Node constructors, one per object literal the parser builds. -/

def numberNode (q : Rat) : ASTNode := .mk "number" [("value", .num q)]

def stringNode (s : String) : ASTNode := .mk "string" [("value", .str s)]

def charNode (s : String) : ASTNode := .mk "char" [("value", .str s)]

def identNode (id : String) : ASTNode := .mk "identifier" [("value", .str id)]

def binopNode (op : String) (l r : ASTNode) : ASTNode :=
  .mk "binary_op" [("operator", .str op), ("left", .node l), ("right", .node r)]

def prefixNode (op id : String) : ASTNode :=
  .mk "prefix" [("operator", .str op), ("identifier", .str id)]

def postfixNode (op id : String) : ASTNode :=
  .mk "postfix" [("operator", .str op), ("identifier", .str id)]

def addressOfNode (r : ASTNode) : ASTNode := .mk "address_of" [("right", .node r)]

def derefNode (r : ASTNode) : ASTNode := .mk "dereference" [("right", .node r)]

def arrayAccessNode (id : String) (idx : ASTNode) : ASTNode :=
  .mk "array_access" [("identifier", .str id), ("value", .node idx)]

def funcCallNode (id : String) (args : List ASTNode) : ASTNode :=
  .mk "function_call" [("identifier", .str id), ("arguments", .nodes args)]

def preprocessorNode (d : String) : ASTNode :=
  .mk "preprocessor" [("directive", .str d)]

def programNode (stmts : List ASTNode) : ASTNode :=
  .mk "program" [("statements", .nodes stmts)]

def blockNode (stmts : List ASTNode) : ASTNode :=
  .mk "block" [("statements", .nodes stmts)]

def breakNode : ASTNode := .mk "break" []

def continueNode : ASTNode := .mk "continue" []

def returnNode (v : Option ASTNode) : ASTNode :=
  .mk "return" (optNodeField "value" v)

def ifNode (cond body : ASTNode) (els : Option ASTNode) : ASTNode :=
  .mk "if_statement"
    ([("condition", .node cond), ("body", .node body)] ++ optNodeField "elseBranch" els)

def whileNode (cond body : ASTNode) : ASTNode :=
  .mk "while_loop" [("condition", .node cond), ("body", .node body)]

def doWhileNode (cond body : ASTNode) : ASTNode :=
  .mk "do_while" [("condition", .node cond), ("body", .node body)]

def forNode (init cond incr : Option ASTNode) (body : ASTNode) : ASTNode :=
  .mk "for_loop"
    (optNodeField "init" init ++ optNodeField "condition" cond ++
      optNodeField "increment" incr ++ [("body", .node body)])

def switchNode (test : ASTNode) (cs : List CaseAlt) (dflt : Option (List ASTNode)) : ASTNode :=
  .mk "switch"
    ([("test", .node test), ("cases", .cases cs)] ++
      (match dflt with | some l => [("default", Field.nodes l)] | none => []))

def declNode (dataType identifier : String) (init : Option ASTNode) (isPointer : Bool) : ASTNode :=
  .mk "declaration"
    ([("dataType", .str dataType), ("identifier", .str identifier)] ++
      optNodeField "init" init ++ [("isPointer", .bool isPointer)])

def arrayDeclNode (dataType identifier : String) (size init : Option ASTNode)
    (isPointer : Bool) : ASTNode :=
  .mk "declaration"
    ([("dataType", .str dataType), ("identifier", .str identifier), ("isArray", .bool true)] ++
      optNodeField "size" size ++ optNodeField "init" init ++ [("isPointer", .bool isPointer)])

def functionNode (returnType identifier : String) (ps : List Param) (body : ASTNode) : ASTNode :=
  .mk "function"
    [("returnType", .str returnType), ("identifier", .str identifier),
     ("parameters", .params ps), ("body", .node body)]

def assignNode (identifier : String) (value : ASTNode) (op : String)
    (left : Option ASTNode) : ASTNode :=
  .mk "assignment"
    ([("identifier", .str identifier), ("value", .node value), ("operator", .str op)] ++
      optNodeField "left" left)

/-- `interface ParseError` of the source. -/
structure ParseError where
  message : String
  position : Nat
  suggestion : String
deriving DecidableEq

/-- `interface ParseResult`: `tree`/`errors` are optional properties. -/
structure ParseResult where
  success : Bool
  tree : Option ASTNode
  errors : Option (List ParseError)

/-- The mutable state of the `Parser` class: the token list, the cursor,
and the accumulated error list. -/
structure PState where
  tokens : List Token
  current : Nat
  errors : List ParseError

/-- Parser computations: state passing plus the thrown-`Error` channel
(`Except.error`; the JS exception payload is never inspected, only the
recorded error list is). The outer `Option` is the fuel-exhaustion marker
of the embedding. -/
def PM (α : Type) : Type := PState → Option (Except Unit α × PState)

instance : Monad PM where
  pure a := fun st => some (Except.ok a, st)
  bind m f := fun st =>
    match m st with
    | none => none
    | some (Except.error e, st1) => some (Except.error e, st1)
    | some (Except.ok a, st1) => f a st1

/-- `Parser.currentToken()`: the token under the cursor, or the final
token when the cursor is past the end (the token list coming from
`tokenize` is never empty; the default is unreachable). -/
def currentTokenOf (st : PState) : Token :=
  ((st.tokens.get? st.current).getD
    ((st.tokens.get? (st.tokens.length - 1)).getD ⟨.EOF, "", 0⟩))

def curTok : PM Token := fun st => some (.ok (currentTokenOf st), st)

/-- `Parser.advance()`: return the current token, moving the cursor
forward unless it is already on the last token. -/
def advanceP : PM Token := fun st =>
  some (.ok (currentTokenOf st),
    if st.current < st.tokens.length - 1 then
      { st with current := st.current + 1 }
    else st)

/-- `this.current--` in `assignmentOrExpression`. -/
def backupP : PM Unit := fun st => some (.ok (), { st with current := st.current - 1 })

/-- `this.errors.push(...)`. -/
def pushErr (m : String) (p : Nat) (s : String) : PM Unit := fun st =>
  some (.ok (), { st with errors := st.errors ++ [⟨m, p, s⟩] })

/-- `this.errors.push(...); throw new Error(...)`. -/
def failWith (m : String) (p : Nat) (s : String) : PM α := fun st =>
  some (.error (), { st with errors := st.errors ++ [⟨m, p, s⟩] })

/-- `if (this.currentToken().type === 'SEMICOLON') this.advance();` -/
def skipSemi : PM Unit := do
  let t ← curTok
  if t.type = .SEMICOLON then do
    let _ ← advanceP
    pure ()
  else pure ()

/-- JS `parseFloat` on the digit/dot strings produced by
`Lexer.readNumber` (digits with at most one decimal point), idealised as
the exact rational `intpart.fracpart`. -/
def parseFloatJS (s : String) : Rat :=
  let l := s.toList
  let ip := l.takeWhile (fun c => c != '.')
  let fp := (l.dropWhile (fun c => c != '.')).drop 1
  mkRat (Int.ofNat ((ip.foldl (fun a c => a * 10 + (c.toNat - 48)) 0) * 10 ^ fp.length +
    fp.foldl (fun a c => a * 10 + (c.toNat - 48)) 0)) (10 ^ fp.length)

/-- The recursive-descent productions of the `Parser` class.  They are
mutually recursive only through the fuel bound: `parserFns (fuel + 1)`
packages every production, and each inner call steps down to the
`parserFns fuel` package (one fuel unit per production call), so the
whole parser is a single structural recursion on the fuel.  Each field
transcribes one source method. -/
structure ParserFns where
  expression : PM ASTNode
  logicalOr : PM ASTNode
  logicalOrLoop : ASTNode → PM ASTNode
  logicalAnd : PM ASTNode
  logicalAndLoop : ASTNode → PM ASTNode
  equality : PM ASTNode
  equalityLoop : ASTNode → PM ASTNode
  relational : PM ASTNode
  relationalLoop : ASTNode → PM ASTNode
  additive : PM ASTNode
  additiveLoop : ASTNode → PM ASTNode
  multiplicative : PM ASTNode
  multiplicativeLoop : ASTNode → PM ASTNode
  power : PM ASTNode
  primary : PM ASTNode
  primaryRest : Token → PM ASTNode
  callArgsLoop : List ASTNode → PM (List ASTNode)
  statement : PM ASTNode
  declaration : PM ASTNode
  declPtrLoop : Bool → PM Bool
  functionDeclaration : String → String → Bool → PM ASTNode
  paramLoop : List Param → PM (List Param)
  block : PM ASTNode
  blockLoop : List ASTNode → PM (List ASTNode)
  ifStatement : PM ASTNode
  whileLoop : PM ASTNode
  doWhileLoop : PM ASTNode
  switchStatement : PM ASTNode
  switchCasesLoop : List CaseAlt → Option (List ASTNode) →
    PM (List CaseAlt × Option (List ASTNode))
  caseBodyLoop : List ASTNode → PM (List ASTNode)
  forLoop : PM ASTNode
  returnStatement : PM ASTNode
  assignmentOrExpression : PM ASTNode
  aoeRest : Token → PM ASTNode
  program : PM ASTNode
  programLoop : List ASTNode → PM ASTNode

/-- The fuel-exhaustion computation. -/
def outOfFuel : PM α := fun _ => none

/-- The fuel-indexed parser: at fuel 0 every production reports fuel
exhaustion; at `fuel + 1` each production runs its source body, making
every inner production call at fuel.  Comments name the source methods. -/
def parserFns : Nat → ParserFns
  | 0 =>
    { expression := outOfFuel, logicalOr := outOfFuel, logicalOrLoop := fun _ => outOfFuel,
      logicalAnd := outOfFuel, logicalAndLoop := fun _ => outOfFuel,
      equality := outOfFuel, equalityLoop := fun _ => outOfFuel,
      relational := outOfFuel, relationalLoop := fun _ => outOfFuel,
      additive := outOfFuel, additiveLoop := fun _ => outOfFuel,
      multiplicative := outOfFuel, multiplicativeLoop := fun _ => outOfFuel,
      power := outOfFuel, primary := outOfFuel, primaryRest := fun _ => outOfFuel,
      callArgsLoop := fun _ => outOfFuel, statement := outOfFuel,
      declaration := outOfFuel, declPtrLoop := fun _ => outOfFuel,
      functionDeclaration := fun _ _ _ => outOfFuel, paramLoop := fun _ => outOfFuel,
      block := outOfFuel, blockLoop := fun _ => outOfFuel, ifStatement := outOfFuel,
      whileLoop := outOfFuel, doWhileLoop := outOfFuel, switchStatement := outOfFuel,
      switchCasesLoop := fun _ _ => outOfFuel, caseBodyLoop := fun _ => outOfFuel,
      forLoop := outOfFuel, returnStatement := outOfFuel,
      assignmentOrExpression := outOfFuel, aoeRest := fun _ => outOfFuel,
      program := outOfFuel, programLoop := fun _ => outOfFuel }
  | fuel + 1 =>
    let p := parserFns fuel
    { -- `Parser.expression()`
      expression := p.logicalOr
      -- `Parser.logicalOr()`
      logicalOr := do
        let left ← p.logicalAnd
        p.logicalOrLoop left
      logicalOrLoop := fun left => do
        let t ← curTok
        if t.type = .LOGICAL ∧ t.value = "||" then do
          let opTok ← advanceP
          let right ← p.logicalAnd
          p.logicalOrLoop (binopNode opTok.value left right)
        else pure left
      -- `Parser.logicalAnd()`
      logicalAnd := do
        let left ← p.equality
        p.logicalAndLoop left
      logicalAndLoop := fun left => do
        let t ← curTok
        if t.type = .LOGICAL ∧ t.value = "&&" then do
          let opTok ← advanceP
          let right ← p.equality
          p.logicalAndLoop (binopNode opTok.value left right)
        else pure left
      -- `Parser.equality()`
      equality := do
        let left ← p.relational
        p.equalityLoop left
      equalityLoop := fun left => do
        let t ← curTok
        if t.type = .COMPARISON ∧ (t.value = "==" ∨ t.value = "!=") then do
          let opTok ← advanceP
          let right ← p.relational
          p.equalityLoop (binopNode opTok.value left right)
        else pure left
      -- `Parser.relational()`
      relational := do
        let left ← p.additive
        p.relationalLoop left
      relationalLoop := fun left => do
        let t ← curTok
        if t.type = .COMPARISON ∧ t.value ∈ ["<", ">", "<=", ">="] then do
          let opTok ← advanceP
          let right ← p.additive
          p.relationalLoop (binopNode opTok.value left right)
        else pure left
      -- `Parser.additive()`
      additive := do
        let left ← p.multiplicative
        p.additiveLoop left
      additiveLoop := fun left => do
        let t ← curTok
        if t.type = .OPERATOR ∧ (t.value = "+" ∨ t.value = "-") then do
          let opTok ← advanceP
          let right ← p.multiplicative
          p.additiveLoop (binopNode opTok.value left right)
        else pure left
      -- `Parser.multiplicative()`
      multiplicative := do
        let left ← p.power
        p.multiplicativeLoop left
      multiplicativeLoop := fun left => do
        let t ← curTok
        if t.type = .OPERATOR ∧ t.value ∈ ["*", "/", "%"] then do
          let opTok ← advanceP
          let right ← p.power
          p.multiplicativeLoop (binopNode opTok.value left right)
        else pure left
      -- `Parser.power()`: right-associative via recursion on the right
      power := do
        let left ← p.primary
        let t ← curTok
        if t.type = .OPERATOR ∧ t.value = "^" then do
          let opTok ← advanceP
          let right ← p.power
          pure (binopNode opTok.value left right)
        else pure left
      -- `Parser.primary()` up to the prefix increment/decrement case;
      -- when that case does not return, the source falls through to the
      -- remaining checks with the original token (`primaryRest`)
      primary := do
        let token ← curTok
        if token.type = .NUMBER then do
          let _ ← advanceP
          pure (numberNode (parseFloatJS token.value))
        else if token.type = .STRING then do
          let _ ← advanceP
          pure (stringNode token.value)
        else if token.type = .CHAR then do
          let _ ← advanceP
          pure (charNode token.value)
        else if token.type = .INCREMENT ∨ token.type = .DECREMENT then do
          let opTok ← advanceP
          let t2 ← curTok
          if t2.type = .IDENTIFIER then do
            let idTok ← advanceP
            pure (prefixNode opTok.value idTok.value)
          else p.primaryRest token
        else p.primaryRest token
      -- the rest of `Parser.primary()`
      primaryRest := fun token => do
        if token.type = .LOGICAL ∧ token.value = "!" then do
          let _ ← advanceP
          let r ← p.primary
          pure (binopNode "!" (numberNode 0) r)
        else if token.type = .AMPERSAND then do
          let _ ← advanceP
          let r ← p.primary
          pure (addressOfNode r)
        else if token.type = .OPERATOR ∧ token.value = "*" then do
          let _ ← advanceP
          let r ← p.primary
          pure (derefNode r)
        else if token.type = .IDENTIFIER then do
          let idTok ← advanceP
          let t2 ← curTok
          if t2.type = .LBRACKET then do
            let _ ← advanceP
            let index ← p.expression
            let t3 ← curTok
            if t3.type ≠ .RBRACKET then
              failWith "Expected ] after array index" t3.position "Add ] to close array subscript"
            else do
              let _ ← advanceP
              pure (arrayAccessNode idTok.value index)
          else if t2.type = .LPAREN then do
            let _ ← advanceP
            let args ← p.callArgsLoop []
            let t3 ← curTok
            if t3.type ≠ .RPAREN then
              failWith "Expected ) after function arguments" t3.position
                "Add ) to close function call"
            else do
              let _ ← advanceP
              pure (funcCallNode idTok.value args)
          else pure (identNode idTok.value)
        else if token.type = .LPAREN then do
          let _ ← advanceP
          let expr ← p.expression
          let t3 ← curTok
          if t3.type ≠ .RPAREN then
            failWith "Missing closing parenthesis" token.position
              ("Add \x27)\x27 after position " ++ toString t3.position)
          else do
            let _ ← advanceP
            pure expr
        else if token.type = .RPAREN then
          failWith "Unexpected closing parenthesis" token.position
            "Remove extra ) or add matching ( before it"
        else if token.type = .OPERATOR then
          if token.value = "+" ∨ token.value = "-" then do
            let opTok ← advanceP
            let operand ← p.primary
            pure (binopNode (if opTok.value = "-" then "unary_neg" else "unary_pos")
              (numberNode 0) operand)
          else
            failWith ("Expected number or \x27(\x27 but got operator \x27" ++ token.value ++ "\x27")
              token.position "Add a number or expression before the operator"
        else
          failWith ("Expected number or \x27(\x27 but got \x27" ++ token.value ++ "\x27")
            token.position "Expression must start with a number or ("
      -- the argument loop shared verbatim by the two function-call sites
      -- (`Parser.primary` and `Parser.assignmentOrExpression`)
      callArgsLoop := fun acc => do
        let t ← curTok
        if t.type ≠ .RPAREN ∧ t.type ≠ .EOF then do
          let arg ← p.expression
          let t2 ← curTok
          if t2.type = .COMMA then do
            let _ ← advanceP
            p.callArgsLoop (acc ++ [arg])
          else p.callArgsLoop (acc ++ [arg])
        else pure acc
      -- `Parser.statement()`
      statement := do
        let token ← curTok
        if token.type = .KEYWORD ∧
            token.value ∈ ["int", "float", "char", "void", "double", "long", "short",
              "unsigned", "signed"] then
          p.declaration
        else if token.type = .KEYWORD ∧ token.value = "if" then p.ifStatement
        else if token.type = .KEYWORD ∧ token.value = "while" then p.whileLoop
        else if token.type = .KEYWORD ∧ token.value = "for" then p.forLoop
        else if token.type = .KEYWORD ∧ token.value = "do" then p.doWhileLoop
        else if token.type = .KEYWORD ∧ token.value = "switch" then p.switchStatement
        else if token.type = .KEYWORD ∧ token.value = "break" then do
          let _ ← advanceP
          skipSemi
          pure breakNode
        else if token.type = .KEYWORD ∧ token.value = "continue" then do
          let _ ← advanceP
          skipSemi
          pure continueNode
        else if token.type = .KEYWORD ∧ token.value = "return" then p.returnStatement
        else if token.type = .LBRACE then p.block
        else if token.type = .IDENTIFIER then p.assignmentOrExpression
        else
          failWith ("Unexpected token \x27" ++ token.value ++ "\x27") token.position
            "Expected declaration, statement, or expression"
      -- `Parser.declaration()`
      declaration := do
        let dt ← advanceP
        let isPointer ← p.declPtrLoop false
        let t ← curTok
        if t.type ≠ .IDENTIFIER then
          failWith "Expected identifier after type" t.position
            ("Add variable name after \x27" ++ dt.value ++ "\x27")
        else do
          let idTok ← advanceP
          let t2 ← curTok
          if t2.type = .LBRACKET then do
            let _ ← advanceP
            let t3 ← curTok
            let size ← if t3.type = .NUMBER then do
                let _ ← advanceP
                pure (some (numberNode (parseFloatJS t3.value)))
              else pure none
            let t4 ← curTok
            if t4.type ≠ .RBRACKET then
              failWith "Expected ] after array size" t4.position "Add ] to close array declaration"
            else do
              let _ ← advanceP
              let t5 ← curTok
              let init ← if t5.type = .ASSIGN then do
                  let _ ← advanceP
                  let e ← p.expression
                  pure (some e)
                else pure none
              let t6 ← curTok
              if t6.type ≠ .SEMICOLON then
                failWith "Missing semicolon" t6.position "Add ; after array declaration"
              else do
                let _ ← advanceP
                pure (arrayDeclNode dt.value idTok.value size init isPointer)
          else if t2.type = .LPAREN then p.functionDeclaration dt.value idTok.value isPointer
          else do
            let t5 ← curTok
            let init ← if t5.type = .ASSIGN then do
                let _ ← advanceP
                let e ← p.expression
                pure (some e)
              else pure none
            let t6 ← curTok
            if t6.type ≠ .SEMICOLON then
              failWith "Missing semicolon" t6.position "Add \x27;\x27 after declaration"
            else do
              let _ ← advanceP
              pure (declNode dt.value idTok.value init isPointer)
      -- the leading `*` loop of `Parser.declaration()`
      declPtrLoop := fun isP => do
        let t ← curTok
        if t.type = .OPERATOR ∧ t.value = "*" then do
          let _ ← advanceP
          p.declPtrLoop true
        else pure isP
      -- `Parser.functionDeclaration(returnType, name, isPointer)`
      functionDeclaration := fun returnType name isPointer => do
        let _ ← advanceP
        let t ← curTok
        let params ← if t.type ≠ .RPAREN then p.paramLoop [] else pure []
        let t2 ← curTok
        if t2.type ≠ .RPAREN then
          failWith "Missing closing parenthesis in function declaration" t2.position
            "Add ) after parameters"
        else do
          let _ ← advanceP
          let body ← p.block
          pure (functionNode (if isPointer then returnType ++ "*" else returnType)
            name params body)
      -- the `while (true)` parameter loop of `Parser.functionDeclaration`
      paramLoop := fun acc => do
        let t ← curTok
        let acc2 ← if t.type = .KEYWORD then do
            let pt ← advanceP
            let t2 ← curTok
            let pp ← if t2.type = .OPERATOR ∧ t2.value = "*" then do
                let _ ← advanceP
                pure true
              else pure false
            let t3 ← curTok
            if t3.type = .IDENTIFIER then do
              let pn ← advanceP
              pure (acc ++ [⟨if pp then pt.value ++ "*" else pt.value, pn.value⟩])
            else pure acc
          else pure acc
        let t4 ← curTok
        if t4.type = .COMMA then do
          let _ ← advanceP
          p.paramLoop acc2
        else pure acc2
      -- `Parser.block()`
      block := do
        let t ← curTok
        if t.type ≠ .LBRACE then
          failWith "Expected \x7b" t.position "Add \x7b to start block"
        else do
          let _ ← advanceP
          let stmts ← p.blockLoop []
          let t2 ← curTok
          if t2.type ≠ .RBRACE then
            failWith "Missing closing brace" t2.position "Add \x7d to close block"
          else do
            let _ ← advanceP
            pure (blockNode stmts)
      -- the statement loop of `Parser.block()`
      blockLoop := fun acc => do
        let t ← curTok
        if t.type ≠ .RBRACE ∧ t.type ≠ .EOF then do
          let s ← p.statement
          p.blockLoop (acc ++ [s])
        else pure acc
      -- `Parser.ifStatement()`
      ifStatement := do
        let _ ← advanceP
        let t ← curTok
        if t.type ≠ .LPAREN then failWith "Expected ( after if" t.position "Add ( before condition"
        else do
          let _ ← advanceP
          let condition ← p.expression
          let t2 ← curTok
          if t2.type ≠ .RPAREN then
            failWith "Expected ) after condition" t2.position "Add ) after if condition"
          else do
            let _ ← advanceP
            let t3 ← curTok
            let body ← if t3.type = .LBRACE then p.block else p.statement
            let t4 ← curTok
            let els ← if t4.type = .KEYWORD ∧ t4.value = "else" then do
                let _ ← advanceP
                let t5 ← curTok
                let e ← if t5.type = .LBRACE then p.block else p.statement
                pure (some e)
              else pure none
            pure (ifNode condition body els)
      -- `Parser.whileLoop()`
      whileLoop := do
        let _ ← advanceP
        let t ← curTok
        if t.type ≠ .LPAREN then
          failWith "Expected ( after while" t.position "Add ( before condition"
        else do
          let _ ← advanceP
          let condition ← p.expression
          let t2 ← curTok
          if t2.type ≠ .RPAREN then
            failWith "Expected ) after condition" t2.position "Add ) after while condition"
          else do
            let _ ← advanceP
            let t3 ← curTok
            let body ← if t3.type = .LBRACE then p.block else p.statement
            pure (whileNode condition body)
      -- `Parser.doWhileLoop()`
      doWhileLoop := do
        let _ ← advanceP
        let t0 ← curTok
        let body ← if t0.type = .LBRACE then p.block else p.statement
        let t ← curTok
        if ¬(t.type = .KEYWORD ∧ t.value = "while") then
          failWith "Expected \x27while\x27 after do body" t.position
            "Add \x27while (condition)\x27 after do block"
        else do
          let _ ← advanceP
          let t2 ← curTok
          if t2.type ≠ .LPAREN then
            failWith "Expected ( after while" t2.position "Add ( before condition"
          else do
            let _ ← advanceP
            let condition ← p.expression
            let t3 ← curTok
            if t3.type ≠ .RPAREN then
              failWith "Expected ) after condition" t3.position "Add ) after condition"
            else do
              let _ ← advanceP
              skipSemi
              pure (doWhileNode condition body)
      -- `Parser.switchStatement()`
      switchStatement := do
        let _ ← advanceP
        let t ← curTok
        if t.type ≠ .LPAREN then
          failWith "Expected ( after switch" t.position "Add ( before expression"
        else do
          let _ ← advanceP
          let test ← p.expression
          let t2 ← curTok
          if t2.type ≠ .RPAREN then
            failWith "Expected ) after switch expression" t2.position "Add ) after expression"
          else do
            let _ ← advanceP
            let t3 ← curTok
            if t3.type ≠ .LBRACE then
              failWith "Expected \x7b after switch" t3.position "Add \x7b to start switch body"
            else do
              let _ ← advanceP
              let cd ← p.switchCasesLoop [] none
              let t4 ← curTok
              if t4.type ≠ .RBRACE then
                failWith "Expected \x7d to close switch" t4.position
                  "Add \x7d to close switch statement"
              else do
                let _ ← advanceP
                pure (switchNode test cd.1 cd.2)
      -- the case/default loop of `Parser.switchStatement()`; note the
      -- case label check looks for a SEMICOLON (the lexer has no colon
      -- token), and its error is recorded without aborting
      switchCasesLoop := fun cs dflt => do
        let t ← curTok
        if t.type ≠ .RBRACE ∧ t.type ≠ .EOF then
          if t.type = .KEYWORD then
            if t.value = "case" then do
              let _ ← advanceP
              let value ← p.expression
              let t2 ← curTok
              if t2.type ≠ .SEMICOLON then do
                pushErr "Expected : after case value" t2.position "Add : after case value"
                let body ← p.caseBodyLoop []
                p.switchCasesLoop (cs ++ [⟨value, body⟩]) dflt
              else do
                let _ ← advanceP
                let body ← p.caseBodyLoop []
                p.switchCasesLoop (cs ++ [⟨value, body⟩]) dflt
            else if t.value = "default" then do
              let _ ← advanceP
              skipSemi
              let body ← p.caseBodyLoop []
              p.switchCasesLoop cs (some body)
            else pure (cs, dflt)
          else pure (cs, dflt)
        else pure (cs, dflt)
      -- the statement loop of one `case`/`default` body
      caseBodyLoop := fun acc => do
        let t ← curTok
        if t.type ≠ .KEYWORD ∧ t.type ≠ .RBRACE ∧ t.type ≠ .EOF then do
          let s ← p.statement
          p.caseBodyLoop (acc ++ [s])
        else pure acc
      -- `Parser.forLoop()`
      forLoop := do
        let _ ← advanceP
        let t ← curTok
        if t.type ≠ .LPAREN then
          failWith "Expected ( after for" t.position "Add ( before for clauses"
        else do
          let _ ← advanceP
          let t1 ← curTok
          let init ← if t1.type = .SEMICOLON then pure none
            else do
              let s ← p.statement
              pure (some s)
          let t2 ← curTok
          let cond ← if t2.type = .SEMICOLON then pure none
            else do
              let e ← p.expression
              pure (some e)
          skipSemi
          let t4 ← curTok
          let incr ← if t4.type = .RPAREN then pure none
            else do
              let e ← p.assignmentOrExpression
              pure (some e)
          let t5 ← curTok
          if t5.type ≠ .RPAREN then
            failWith "Expected ) after for clauses" t5.position "Add ) after for loop header"
          else do
            let _ ← advanceP
            let t6 ← curTok
            let body ← if t6.type = .LBRACE then p.block else p.statement
            pure (forNode init cond incr body)
      -- `Parser.returnStatement()`
      returnStatement := do
        let _ ← advanceP
        let t ← curTok
        let value ← if t.type ≠ .SEMICOLON then do
            let e ← p.expression
            pure (some e)
          else pure none
        let t2 ← curTok
        if t2.type ≠ .SEMICOLON then
          failWith "Missing semicolon after return" t2.position "Add ; after return statement"
        else do
          let _ ← advanceP
          pure (returnNode value)
      -- `Parser.assignmentOrExpression()`; when an array subscript is
      -- parsed but no assignment operator follows, the source falls
      -- through to the remaining checks with the subscript consumed
      -- (`aoeRest`)
      assignmentOrExpression := do
        let idTok ← advanceP
        let t ← curTok
        if t.type = .LBRACKET then do
          let _ ← advanceP
          let index ← p.expression
          let t2 ← curTok
          if t2.type ≠ .RBRACKET then
            failWith "Expected ] after array index" t2.position "Add ] to close array subscript"
          else do
            let _ ← advanceP
            let t3 ← curTok
            if t3.type = .ASSIGN ∨ t3.type = .COMPOUND_ASSIGN then do
              let opTok ← advanceP
              let value ← p.expression
              skipSemi
              pure (assignNode idTok.value value opTok.value
                (some (arrayAccessNode idTok.value index)))
            else p.aoeRest idTok
        else p.aoeRest idTok
      -- the function-call / increment / assignment / bare-expression
      -- tail of `Parser.assignmentOrExpression()`
      aoeRest := fun idTok => do
        let t ← curTok
        if t.type = .LPAREN then do
          let _ ← advanceP
          let args ← p.callArgsLoop []
          let t2 ← curTok
          if t2.type ≠ .RPAREN then
            failWith "Expected ) after function arguments" t2.position
              "Add ) to close function call"
          else do
            let _ ← advanceP
            skipSemi
            pure (funcCallNode idTok.value args)
        else if t.type = .INCREMENT ∨ t.type = .DECREMENT then do
          let opTok ← advanceP
          skipSemi
          pure (postfixNode opTok.value idTok.value)
        else if t.type = .ASSIGN ∨ t.type = .COMPOUND_ASSIGN then do
          let opTok ← advanceP
          let value ← p.expression
          skipSemi
          pure (assignNode idTok.value value opTok.value none)
        else do
          backupP
          let expr ← p.expression
          skipSemi
          pure expr
      -- `Parser.program()`
      program := p.programLoop []
      -- the statement loop of `Parser.program()`
      programLoop := fun acc => do
        let t ← curTok
        if t.type ≠ .EOF then
          if t.type = .PREPROCESSOR then do
            let _ ← advanceP
            p.programLoop (acc ++ [preprocessorNode t.value])
          else do
            let s ← p.statement
            p.programLoop (acc ++ [s])
        else pure (programNode acc)
    }

/-- `Parser.expression()` at a given fuel. -/
def expression (fuel : Nat) : PM ASTNode := (parserFns fuel).expression

/-- `Parser.program()` at a given fuel. -/
def program (fuel : Nat) : PM ASTNode := (parserFns fuel).program

/-- `Parser.statement()` at a given fuel. -/
def statement (fuel : Nat) : PM ASTNode := (parserFns fuel).statement

/-- The `hasCFeatures` heuristic of `Parser.parse()`. -/
def hasCFeatures (ts : List Token) : Bool :=
  ts.any (fun t => t.type == TokenType.KEYWORD || t.type == .SEMICOLON ||
    t.type == .LBRACE || t.type == .RBRACE || t.type == .PREPROCESSOR)

/-- The top production `Parser.parse()` runs after the invalid-token
check: `program()` for C-shaped token streams, `expression()` otherwise,
starting from a fresh cursor and empty error list. -/
def topProduction (fuel : Nat) (ts : List Token) : Option (Except Unit ASTNode × PState) :=
  if hasCFeatures ts then program fuel ⟨ts, 0, []⟩ else expression fuel ⟨ts, 0, []⟩

/-- The trailing-token error pushed by `Parser.parse()`. -/
def unexpectedTokErr (t : Token) : ParseError :=
  ⟨"Unexpected token \x27" ++ t.value ++ "\x27", t.position,
   "Check for missing operators, semicolons, or braces"⟩

/-- `Parser.parse()`: invalid-token check, mode dispatch, EOF check, and
the final success/failure packaging (the `catch` branch returns the
errors recorded up to the throw). -/
def parseTokens (fuel : Nat) (ts : List Token) : Option ParseResult :=
  match ts.find? (fun t => t.type == TokenType.INVALID) with
  | some t =>
    some ⟨false, none,
      some [⟨"Invalid character \x27" ++ t.value ++ "\x27", t.position,
        "Remove \x27" ++ t.value ++ "\x27 or use valid characters"⟩]⟩
  | none =>
    match topProduction fuel ts with
    | none => none
    | some (.error _, st1) => some ⟨false, none, some st1.errors⟩
    | some (.ok tree, st1) =>
      let errs := if (currentTokenOf st1).type ≠ TokenType.EOF
        then st1.errors ++ [unexpectedTokErr (currentTokenOf st1)]
        else st1.errors
      if errs.length > 0 then some ⟨false, none, some errs⟩
      else some ⟨true, some tree, none⟩

/-- `parseExpression(input)`: empty-input check, then lex and parse. -/
def parseExpression (fuel : Nat) (s : String) : Option ParseResult :=
  if trimJS s.toList = [] then
    some ⟨false, none,
      some [⟨"Empty expression", 0, "Enter an arithmetic expression or C program"⟩]⟩
  else parseTokens fuel (tokenize s)

/-- The JS values flowing through the evaluator and interpreter: numbers
(idealised as `Rat`, with `NaN` split off as its own constructor so that
strict equality and truthiness match JS), `null`, `undefined`, strings,
and an opaque stand-in for any other object (never produced on the
modelled paths). -/
inductive Value where
  | num (q : Rat)
  | vnull
  | undef
  | nan
  | vstr (s : String)
  | obj
deriving DecidableEq

/-- JS numeric coercion as used by the arithmetic operators: `null`
coerces to 0, `undefined` and `NaN` to NaN (`none`).  String/object
coercion is not modelled (mapped to NaN); no modelled program path feeds
strings or objects into arithmetic. -/
def toNumJS : Value → Option Rat
  | .num q => some q
  | .vnull => some 0
  | _ => none

/-- JS strict equality `===`.  `NaN === NaN` is false; equality of two
distinct object references is not modelled (no modelled path compares
objects). -/
def jsStrictEq : Value → Value → Bool
  | .num a, .num b => a == b
  | .vnull, .vnull => true
  | .undef, .undef => true
  | .vstr a, .vstr b => a == b
  | _, _ => false

/-- Standard JS truthiness (used by `||`, `&&` and the ternary in the
interpreter's logical operators): 0, NaN, the empty string, `null` and
`undefined` are falsy. -/
def jsTruthy : Value → Bool
  | .num q => q != 0
  | .vstr s => s != ""
  | .obj => true
  | _ => false

/-- `Interpreter.isTruthy`: `value !== 0 && value !== null && value !==
undefined`.  Note this differs from JS truthiness: NaN and the empty
string count as true here, per the source. -/
def isTruthy : Value → Bool
  | .num q => q != 0
  | .vnull => false
  | .undef => false
  | _ => true

/-- `a || b` on values. -/
def jsOr (a b : Value) : Value := if jsTruthy a then a else b

/- The Batteries rational operations are `@[irreducible]`, which keeps
`decide`/`rfl` from evaluating concrete runs.  The embedding therefore
uses the following definitionally transparent equivalents, each proved
equal to the standard operation in the theorem section below
(`rAdd_eq` and friends). -/

/-- Transparent rational addition (`rAdd_eq : rAdd a b = a + b`). -/
def rAdd (a b : Rat) : Rat := mkRat (a.num * b.den + b.num * a.den) (a.den * b.den)

/-- Transparent rational subtraction. -/
def rSub (a b : Rat) : Rat := mkRat (a.num * b.den - b.num * a.den) (a.den * b.den)

/-- Transparent rational multiplication. -/
def rMul (a b : Rat) : Rat := mkRat (a.num * b.num) (a.den * b.den)

/-- Transparent rational division (0 at a zero divisor, as in `Rat`). -/
def rDiv (a b : Rat) : Rat :=
  if 0 ≤ b.num then mkRat (a.num * b.den) (a.den * b.num.toNat)
  else mkRat (-(a.num * b.den)) (a.den * (-b.num).toNat)

/-- Transparent rational power. -/
def rPow (a : Rat) : Nat → Rat
  | 0 => 1
  | n + 1 => rMul (rPow a n) a

/-- Transparent `Int` to `Rat` inclusion. -/
def rOfInt (n : Int) : Rat := mkRat n 1

/-- Truncation toward zero of a rational (the rounding of the JS `%`). -/
def ratTrunc (q : Rat) : Int := if 0 ≤ q.num then q.floor else -(Rat.floor (-q))

/-- JS unary minus. -/
def jsNeg (v : Value) : Value :=
  match toNumJS v with
  | some a => .num (-a)
  | none => .nan

/-- JS `+` restricted to numeric coercion (concatenation unmodelled). -/
def jsAdd (l r : Value) : Value :=
  match toNumJS l, toNumJS r with
  | some a, some b => .num (rAdd a b)
  | _, _ => .nan

def jsSub (l r : Value) : Value :=
  match toNumJS l, toNumJS r with
  | some a, some b => .num (rSub a b)
  | _, _ => .nan

def jsMul (l r : Value) : Value :=
  match toNumJS l, toNumJS r with
  | some a, some b => .num (rMul a b)
  | _, _ => .nan

/-- JS real division. Division by zero gives `Infinity`/NaN in JS; it is
mapped to NaN here and never exercised by a claim. -/
def jsDiv (l r : Value) : Value :=
  match toNumJS l, toNumJS r with
  | some a, some b => if b = 0 then .nan else .num (rDiv a b)
  | _, _ => .nan

/-- JS `%` (truncated remainder, sign of the dividend; `x % 0` is NaN). -/
def jsRem (l r : Value) : Value :=
  match toNumJS l, toNumJS r with
  | some a, some b =>
    if b = 0 then .nan else .num (rSub a (rMul b (rOfInt (ratTrunc (rDiv a b)))))
  | _, _ => .nan

/-- `Math.pow`, exact for integer exponents; a fractional exponent is in
general irrational and is mapped to NaN (never exercised). -/
def jsPow (l r : Value) : Value :=
  match toNumJS l, toNumJS r with
  | some a, some b =>
    if b.den = 1 then
      if 0 ≤ b.num then .num (rPow a b.num.toNat)
      else if a = 0 then .nan
      else .num (rDiv 1 (rPow a (-b.num).toNat))
    else .nan
  | _, _ => .nan

/-- JS numeric comparison: false whenever either side coerces to NaN. -/
def jsLtB (l r : Value) : Bool :=
  match toNumJS l, toNumJS r with
  | some a, some b => a < b
  | _, _ => false

def jsLeB (l r : Value) : Bool :=
  match toNumJS l, toNumJS r with
  | some a, some b => a ≤ b
  | _, _ => false

/-- `String(value)` as used by the printf stub.  Exact for integers,
`null`, `undefined`, NaN and strings; the decimal expansion of a
non-integer number is not reproduced (never exercised). -/
def jsString : Value → String
  | .num q => if q.den = 1 then toString q.num else toString q.num ++ "/" ++ toString q.den
  | .vnull => "null"
  | .undef => "undefined"
  | .nan => "NaN"
  | .vstr s => s
  | .obj => "[object Object]"

/-- Stringification of a possibly-undefined name in a template literal. -/
def jsNameStr (n : Option String) : String := n.getD "undefined"

/-- The `${node.value}` interpolation of the evaluator's identifier
error. -/
def valuePropStr (nd : ASTNode) : String :=
  match nd.getF "value" with
  | some (.str s) => s
  | some (.num q) => jsString (.num q)
  | some _ => "[object Object]"
  | none => "undefined"

/-- JS truthiness of an object property payload (`if (node.value)`):
numbers are falsy at 0, strings at the empty string, node and list
payloads are always truthy. -/
def fieldTruthy : Field → Bool
  | .num q => q != 0
  | .str s => s != ""
  | _ => true

/-- The closing checks of `evaluateAST`: a program-structure node type
throws the unsupported-structure message, anything else the invalid-type
message. -/
def evalStructCheck (t : String) : Option (Except String Value) :=
  if t ∈ ["program", "declaration", "function", "if_statement", "while_loop",
      "for_loop", "do_while", "switch", "function_call", "array_access",
      "assignment", "break", "continue", "return", "preprocessor",
      "string", "char", "postfix", "prefix", "address_of", "dereference"] then
    some (.error "Cannot evaluate C program structure - this parser focuses on syntax analysis")
  else
    some (.error ("Invalid AST node type: " ++ t))

/-- `evaluateAST(node)`: the pure arithmetic evaluator.  Fuel only bounds
the recursion depth; `Except.error` is the thrown `EvaluationError`
message. -/
def evaluateAST : Nat → ASTNode → Option (Except String Value)
  | 0, _ => none
  | fuel + 1, nd =>
    let t := nd.typeOf
    if t = "number" then
      -- `return node.value as number || 0`: absent value gives 0; a
      -- non-numeric payload is never produced for a number node.
      some (.ok (match nd.getNum "value" with
        | some q => .num q
        | none => .num 0))
    else if t = "identifier" then
      some (.error ("Cannot evaluate identifier \x27" ++ valuePropStr nd ++
        "\x27 without variable context"))
    else if t = "binary_op" then
      -- `node.type === 'binary_op' && node.left && node.right`; with a
      -- child missing the source falls through to the closing checks.
      match nd.getNode "left", nd.getNode "right" with
      | some ln, some rn =>
        (match evaluateAST fuel ln with
        | none => none
        | some (.error e) => some (.error e)
        | some (.ok lv) =>
          match evaluateAST fuel rn with
          | none => none
          | some (.error e) => some (.error e)
          | some (.ok rv) =>
            some (match nd.getStr "operator" with
            | some "+" => .ok (jsAdd lv rv)
            | some "-" => .ok (jsSub lv rv)
            | some "*" => .ok (jsMul lv rv)
            | some "/" =>
              if rv = Value.num 0 then .error "Division by zero"
              else .ok (jsDiv lv rv)
            | some "%" => .ok (jsRem lv rv)
            | some "^" => .ok (jsPow lv rv)
            | some "unary_neg" => .ok (jsNeg rv)
            | some "unary_pos" => .ok rv
            | op => .error ("Unknown operator: " ++ jsNameStr op)))
      | _, _ => evalStructCheck t
    else evalStructCheck t

/-- A JS `Map` key as the interpreter uses it: a string, or `undefined`
(`none`) when the source reads a missing node property as a key. -/
abbrev VKey := Option String

/-- `Map.prototype.get` on an association list. -/
def assocGet {β : Type} (m : List (VKey × β)) (k : VKey) : Option β :=
  (m.find? (fun p => p.1 == k)).map (fun p => p.2)

/-- `Map.prototype.has`. -/
def assocHas {β : Type} (m : List (VKey × β)) (k : VKey) : Bool :=
  (m.find? (fun p => p.1 == k)).isSome

/-- `Map.prototype.set`: update in place, or append in insertion order. -/
def assocSet {β : Type} (m : List (VKey × β)) (k : VKey) (v : β) : List (VKey × β) :=
  if m.any (fun p => p.1 == k) then
    m.map (fun p => if p.1 == k then (k, v) else p)
  else m ++ [(k, v)]

/-- A function-table entry: `\x7b params, body, returnType \x7d`.  The
body property of the defining node may be a node, a statement list, or
absent. -/
structure FuncDef where
  params : List Param
  body : Option (ASTNode ⊕ List ASTNode)
  returnType : String

/-- The per-`execute()` mutable state of the `Interpreter` class.
`returnValue = Value.vnull` is the JS `null`, meaning no pending return. -/
structure IState where
  «variables» : List (VKey × Value)
  functions : List (VKey × FuncDef)
  output : List String
  returnValue : Value
  breakFlag : Bool
  continueFlag : Bool

/-- The fresh state a new `Interpreter` starts from. -/
def initState : IState := ⟨[], [], [], .vnull, false, false⟩

/-- `interface ExecutionResult` of the source. -/
structure ExecutionResult where
  output : List String
  returnValue : Value
  «variables» : List (VKey × Value)
  error : Option String

/-- A node-or-statement-list property (`body`, `condition`, ...), as
`interpretNode` accepts either. -/
def ASTNode.getSub (n : ASTNode) (k : String) : Option (ASTNode ⊕ List ASTNode) :=
  match n.getF k with
  | some (.node m) => some (.inl m)
  | some (.nodes l) => some (.inr l)
  | _ => none

/-- `node.returnType || 'int'`. -/
def returnTypeOr (n : ASTNode) : String :=
  match n.getStr "returnType" with
  | some s => if s = "" then "int" else s
  | none => "int"

/-- The message of the JS `TypeError` raised when `interpretNode` is
handed `undefined` through a missing `!`-asserted property. -/
def typeErrMsg : String :=
  "Cannot read properties of undefined (reading \x27type\x27)"

/-- `evaluatedArgs[i] || 0` for each declared parameter, in order
(`func.params.forEach` in `callFunction`). -/
def bindParams (vars : List (VKey × Value)) :
    List Param → List Value → Nat → List (VKey × Value)
  | [], _, _ => vars
  | p :: rest, vals, i =>
    bindParams (assocSet vars (some p.name) (jsOr ((vals.get? i).getD .undef) (.num 0)))
      rest vals (i + 1)

/-- The operator switch of `Interpreter.evaluateBinaryOp`, applied to the
already-evaluated operand values.  An operator outside the handled set
(including an absent operator property) falls to the default and yields
0. -/
def applyBinOp (op : Option String) (l r : Value) : Value :=
  if op = some "+" then jsAdd l r
  else if op = some "-" then jsSub l r
  else if op = some "*" then jsMul l r
  else if op = some "/" then
    -- `Math.floor(left / right)`
    match toNumJS l, toNumJS r with
    | some a, some b => if b = 0 then .nan else .num (rOfInt (Rat.floor (rDiv a b)))
    | _, _ => .nan
  else if op = some "%" then jsRem l r
  else if op = some "==" then .num (if jsStrictEq l r then 1 else 0)
  else if op = some "!=" then .num (if jsStrictEq l r then 0 else 1)
  else if op = some "<" then .num (if jsLtB l r then 1 else 0)
  else if op = some ">" then .num (if jsLtB r l then 1 else 0)
  else if op = some "<=" then .num (if jsLeB l r then 1 else 0)
  else if op = some ">=" then .num (if jsLeB r l then 1 else 0)
  else if op = some "&&" then .num (if jsTruthy l && jsTruthy r then 1 else 0)
  else if op = some "||" then .num (if jsTruthy l || jsTruthy r then 1 else 0)
  else if op = some "!" then .num (if jsTruthy r then 0 else 1)
  else .num 0

mutual

/-- `Interpreter.interpretNode(node)`: dispatch on an array or on the
node type tag.  A type outside the handled set falls to the default and
returns `null` with the state unchanged. -/
def interpretNode : Nat → IState → ASTNode ⊕ List ASTNode →
    Option (Except String Value × IState)
  | 0, _, _ => none
  | fuel + 1, st, .inr stmts => interpSeq fuel st stmts .undef
  | fuel + 1, st, .inl nd =>
    let t := nd.typeOf
    if t = "program" then
      interpretNode fuel st (.inr ((nd.getNodes "statements").getD []))
    else if t = "function_declaration" then
      let st1 := { st with functions := (assocSet st.functions (nd.getStr "identifier")
        ⟨(nd.getParams "parameters").getD [], nd.getSub "body", returnTypeOr nd⟩) }
      if nd.getStr "identifier" = some "main" then
        match callFunction fuel st1 (some "main") [] with
        | none => none
        | some (.error e, st2) => some (.error e, st2)
        | some (.ok v, st2) => some (.ok .vnull, { st2 with returnValue := v })
      else some (.ok .vnull, st1)
    else if t = "declaration" then
      match nd.getSub "init" with
      | some i =>
        match interpretNode fuel st i with
        | none => none
        | some (.error e, st1) => some (.error e, st1)
        | some (.ok v, st1) =>
          some (.ok .vnull,
            { st1 with «variables» := assocSet st1.«variables» (nd.getStr "identifier") v })
      | none =>
        some (.ok .vnull,
          { st with «variables» := assocSet st.«variables» (nd.getStr "identifier") (.num 0) })
    else if t = "assignment" then
      -- reads `node.right!`, which parser-produced assignment nodes do
      -- not carry (they store the RHS under `value`)
      match nd.getSub "right" with
      | none => some (.error typeErrMsg, st)
      | some r =>
        match interpretNode fuel st r with
        | none => none
        | some (.error e, st1) => some (.error e, st1)
        | some (.ok v, st1) =>
          some (.ok v,
            { st1 with «variables» := assocSet st1.«variables» (nd.getStr "identifier") v })
    else if t = "if_statement" then
      match interpProp fuel st (nd.getSub "condition") with
      | none => none
      | some (.error e, st1) => some (.error e, st1)
      | some (.ok c, st1) =>
        if isTruthy c then interpProp fuel st1 (nd.getSub "body")
        else
          match nd.getSub "elseBranch" with
          | some eb => interpretNode fuel st1 eb
          | none => some (.ok .vnull, st1)
    else if t = "while_loop" then
      whileLoopI fuel st (nd.getSub "condition") (nd.getSub "body")
    else if t = "do_while_loop" then
      doWhileLoopI fuel st (nd.getSub "condition") (nd.getSub "body")
    else if t = "for_loop" then
      match nd.getSub "init" with
      | some i =>
        match interpretNode fuel st i with
        | none => none
        | some (.error e, st1) => some (.error e, st1)
        | some (.ok _, st1) => forLoopI fuel st1 nd
      | none => forLoopI fuel st nd
    else if t = "switch_statement" then
      match interpProp fuel st (nd.getSub "test") with
      | none => none
      | some (.error e, st1) => some (.error e, st1)
      | some (.ok tv, st1) =>
        match switchLoopI fuel st1 tv ((nd.getCases "cases").getD []) false with
        | none => none
        | some (.error e, st2) => some (.error e, st2)
        | some (.ok matched, st2) =>
          if !matched then
            match nd.getNodes "default" with
            | some dl =>
              match interpretNode fuel st2 (.inr dl) with
              | none => none
              | some (.error e, st3) => some (.error e, st3)
              | some (.ok _, st3) => some (.ok .vnull, { st3 with breakFlag := false })
            | none => some (.ok .vnull, st2)
          else some (.ok .vnull, st2)
    else if t = "return_statement" then
      match nd.getF "value" with
      | some f =>
        if fieldTruthy f then
          match f with
          | .node vn =>
            match interpretNode fuel st (.inl vn) with
            | none => none
            | some (.error e, st1) => some (.error e, st1)
            | some (.ok v, st1) => some (.ok v, { st1 with returnValue := v })
          | .nodes l =>
            -- an array payload also has `typeof === 'object'`
            match interpretNode fuel st (.inr l) with
            | none => none
            | some (.error e, st1) => some (.error e, st1)
            | some (.ok v, st1) => some (.ok v, { st1 with returnValue := v })
          | .num q => some (.ok (.num q), { st with returnValue := .num q })
          | _ =>
            -- string/bool payloads: `typeof !== 'number'`, so 0; other
            -- payload kinds never occur on return nodes
            some (.ok (.num 0), { st with returnValue := .num 0 })
        else some (.ok (.num 0), { st with returnValue := .num 0 })
      | none => some (.ok (.num 0), { st with returnValue := .num 0 })
    else if t = "break_statement" then
      some (.ok .vnull, { st with breakFlag := true })
    else if t = "continue_statement" then
      some (.ok .vnull, { st with continueFlag := true })
    else if t = "function_call" then
      callFunction fuel st (nd.getStr "identifier") ((nd.getNodes "arguments").getD [])
    else if t = "binary_op" then
      match interpProp fuel st (nd.getSub "left") with
      | none => none
      | some (.error e, st1) => some (.error e, st1)
      | some (.ok l, st1) =>
        match interpProp fuel st1 (nd.getSub "right") with
        | none => none
        | some (.error e, st2) => some (.error e, st2)
        | some (.ok r, st2) => some (.ok (applyBinOp (nd.getStr "operator") l r), st2)
    else if t = "unary_op" then
      match interpProp fuel st (nd.getSub "right") with
      | none => none
      | some (.error e, st1) => some (.error e, st1)
      | some (.ok v, st1) =>
        if nd.getStr "operator" = some "-" then some (.ok (jsNeg v), st1)
        else if nd.getStr "operator" = some "!" then
          some (.ok (.num (if jsTruthy v then 0 else 1)), st1)
        else some (.ok v, st1)
    else if t = "identifier" then
      if assocHas st.«variables» (nd.getStr "identifier") then
        some (.ok ((assocGet st.«variables» (nd.getStr "identifier")).getD .undef), st)
      else some (.ok (.num 0), st)
    else if t = "number" then
      some (.ok (match nd.getF "value" with
        | some (.num q) => .num q
        | some (.str s) => .vstr s
        | some _ => .obj
        | none => .undef), st)
    else if t = "preprocessor" then some (.ok .vnull, st)
    else some (.ok .vnull, st)

/-- `this.interpretNode(node.prop!)`: an absent property is `undefined`,
on which `interpretNode` raises the reading-`type` TypeError. -/
def interpProp : Nat → IState → Option (ASTNode ⊕ List ASTNode) →
    Option (Except String Value × IState)
  | 0, _, _ => none
  | _ + 1, st, none => some (.error typeErrMsg, st)
  | fuel + 1, st, some x => interpretNode fuel st x

/-- The statement-array loop of `interpretNode`: stop as soon as a
return value is pending or a break/continue flag is up; `lastValue`
starts out `undefined`. -/
def interpSeq : Nat → IState → List ASTNode → Value →
    Option (Except String Value × IState)
  | 0, _, _, _ => none
  | _ + 1, st, [], lastValue => some (.ok lastValue, st)
  | fuel + 1, st, s :: rest, lastValue =>
    if st.returnValue ≠ .vnull ∨ st.breakFlag ∨ st.continueFlag then
      some (.ok lastValue, st)
    else
      match interpretNode fuel st (.inl s) with
      | none => none
      | some (.error e, st1) => some (.error e, st1)
      | some (.ok v, st1) => interpSeq fuel st1 rest v

/-- The `while` loop of the `while_loop` case. -/
def whileLoopI : Nat → IState → Option (ASTNode ⊕ List ASTNode) →
    Option (ASTNode ⊕ List ASTNode) → Option (Except String Value × IState)
  | 0, _, _, _ => none
  | fuel + 1, st, cond, body =>
    match interpProp fuel st cond with
    | none => none
    | some (.error e, st1) => some (.error e, st1)
    | some (.ok c, st1) =>
      if isTruthy c then
        match interpProp fuel st1 body with
        | none => none
        | some (.error e, st2) => some (.error e, st2)
        | some (.ok _, st2) =>
          if st2.returnValue ≠ .vnull ∨ st2.breakFlag then
            some (.ok .vnull, { st2 with breakFlag := false })
          else if st2.continueFlag then
            whileLoopI fuel { st2 with continueFlag := false } cond body
          else whileLoopI fuel st2 cond body
      else some (.ok .vnull, { st1 with breakFlag := false })

/-- The `do ... while` loop of the `do_while_loop` case. -/
def doWhileLoopI : Nat → IState → Option (ASTNode ⊕ List ASTNode) →
    Option (ASTNode ⊕ List ASTNode) → Option (Except String Value × IState)
  | 0, _, _, _ => none
  | fuel + 1, st, cond, body =>
    match interpProp fuel st body with
    | none => none
    | some (.error e, st1) => some (.error e, st1)
    | some (.ok _, st1) =>
      if st1.returnValue ≠ .vnull ∨ st1.breakFlag then
        some (.ok .vnull, { st1 with breakFlag := false })
      else
        let st2 := if st1.continueFlag then { st1 with continueFlag := false } else st1
        match interpProp fuel st2 cond with
        | none => none
        | some (.error e, st3) => some (.error e, st3)
        | some (.ok c, st3) =>
          if isTruthy c then doWhileLoopI fuel st3 cond body
          else some (.ok .vnull, { st3 with breakFlag := false })

/-- The `while` loop of the `for_loop` case (after the `init` clause);
a missing condition property counts as true. -/
def forLoopI : Nat → IState → ASTNode → Option (Except String Value × IState)
  | 0, _, _ => none
  | fuel + 1, st, nd =>
    let condStep : Option (Except String Bool × IState) :=
      match nd.getSub "condition" with
      | some c =>
        match interpretNode fuel st c with
        | none => none
        | some (.error e, st1) => some (.error e, st1)
        | some (.ok v, st1) => some (.ok (isTruthy v), st1)
      | none => some (.ok true, st)
    match condStep with
    | none => none
    | some (.error e, st1) => some (.error e, st1)
    | some (.ok false, st1) => some (.ok .vnull, { st1 with breakFlag := false })
    | some (.ok true, st1) =>
      match interpProp fuel st1 (nd.getSub "body") with
      | none => none
      | some (.error e, st2) => some (.error e, st2)
      | some (.ok _, st2) =>
        if st2.returnValue ≠ .vnull ∨ st2.breakFlag then
          some (.ok .vnull, { st2 with breakFlag := false })
        else
          let st3 := if st2.continueFlag then { st2 with continueFlag := false } else st2
          match nd.getSub "increment" with
          | some inc =>
            match interpretNode fuel st3 inc with
            | none => none
            | some (.error e, st4) => some (.error e, st4)
            | some (.ok _, st4) => forLoopI fuel st4 nd
          | none => forLoopI fuel st3 nd

/-- The `for (caseNode of cases)` loop of the `switch_statement` case;
returns whether some case matched (the complement of `executeDefault`). -/
def switchLoopI : Nat → IState → Value → List CaseAlt → Bool →
    Option (Except String Bool × IState)
  | 0, _, _, _, _ => none
  | _ + 1, st, _, [], matched => some (.ok matched, st)
  | fuel + 1, st, tv, CaseAlt.mk cv cb :: rest, matched =>
    match interpretNode fuel st (.inl cv) with
    | none => none
    | some (.error e, st1) => some (.error e, st1)
    | some (.ok cval, st1) =>
      if jsStrictEq tv cval || matched then
        match interpretNode fuel st1 (.inr cb) with
        | none => none
        | some (.error e, st2) => some (.error e, st2)
        | some (.ok _, st2) =>
          if st2.breakFlag then some (.ok true, { st2 with breakFlag := false })
          else switchLoopI fuel st2 tv rest true
      else switchLoopI fuel st1 tv rest matched

/-- Sequential evaluation of call arguments
(`args.map(arg => this.interpretNode(arg))`). -/
def evalArgs : Nat → IState → List ASTNode →
    Option (Except String (List Value) × IState)
  | 0, _, _ => none
  | _ + 1, st, [] => some (.ok [], st)
  | fuel + 1, st, a :: rest =>
    match interpretNode fuel st (.inl a) with
    | none => none
    | some (.error e, st1) => some (.error e, st1)
    | some (.ok v, st1) =>
      match evalArgs fuel st1 rest with
      | none => none
      | some (.error e, st2) => some (.error e, st2)
      | some (.ok vs, st2) => some (.ok (v :: vs), st2)

/-- `Interpreter.callFunction(name, args)`: the printf output stub, the
undefined-function failure, and the snapshot/bind/execute/restore
sequence for user functions.  The variable snapshot is taken before the
arguments are evaluated, exactly as in the source. -/
def callFunction : Nat → IState → Option String → List ASTNode →
    Option (Except String Value × IState)
  | 0, _, _, _ => none
  | fuel + 1, st, name, args =>
    if name = some "printf" then
      match evalArgs fuel st args with
      | none => none
      | some (.error e, st1) => some (.error e, st1)
      | some (.ok vals, st1) =>
        some (.ok (.num 0),
          { st1 with output := st1.output ++ [String.intercalate " " (vals.map jsString)] })
    else
      match assocGet st.functions name with
      | none => some (.error ("Function " ++ jsNameStr name ++ " not defined"), st)
      | some fn =>
        let snapshot := st.«variables»
        match evalArgs fuel st args with
        | none => none
        | some (.error e, st1) => some (.error e, st1)
        | some (.ok vals, st1) =>
          let st2 := { st1 with «variables» := bindParams st1.«variables» fn.params vals 0 }
          let prevReturn := st2.returnValue
          let st3 := { st2 with returnValue := .vnull }
          match interpProp fuel st3 fn.body with
          | none => none
          | some (.error e, st4) => some (.error e, st4)
          | some (.ok _, st4) =>
            let result := if st4.returnValue ≠ .vnull then st4.returnValue else .num 0
            some (.ok result, { st4 with returnValue := prevReturn, «variables» := snapshot })

end

/-- `Interpreter.execute(node)`: every internal fault is converted into
the `error` field of the result; on success the result carries the
output, pending return value and final variable snapshot. -/
def execute (fuel : Nat) (node : ASTNode) : Option ExecutionResult :=
  match interpretNode fuel initState (.inl node) with
  | none => none
  | some (.ok _, st) => some ⟨st.output, st.returnValue, st.«variables», none⟩
  | some (.error e, st) => some ⟨st.output, .vnull, st.«variables», some e⟩

/-- `executeProgram(ast)`: a fresh interpreter per call. -/
def executeProgram (fuel : Nat) (ast : ASTNode) : Option ExecutionResult :=
  execute fuel ast

/- Concrete inputs and expected trees used by the claim theorems. -/

/-- The non-terminating loop program text of C1. -/
def c1src : String := "while(1)\x7b\x7d"

/-- The tree the parser produces for `c1src`. -/
def whileTrueProg : ASTNode := programNode [whileNode (numberNode 1) (blockNode [])]

/-- The C2 program text. -/
def c2src : String :=
  "int main() \x7b int x = 5; int y = 3; printf(x + y); return x * y; \x7d"

/-- The tree the parser produces for `c2src`: note the function node is
tagged `function`, and the return statement `return` — names the
interpreter dispatch does not handle. -/
def c2tree : ASTNode := programNode
  [functionNode "int" "main" []
    (blockNode
      [declNode "int" "x" (some (numberNode 5)) false,
       declNode "int" "y" (some (numberNode 3)) false,
       funcCallNode "printf" [binopNode "+" (identNode "x") (identNode "y")],
       returnNode (some (binopNode "*" (identNode "x") (identNode "y")))])]

/-- The tree the parser produces for `2 ^ 3 ^ 2`: the power operators
grouped to the right. -/
def c7tree : ASTNode :=
  binopNode "^" (numberNode 2) (binopNode "^" (numberNode 3) (numberNode 2))

/-- The node-type tags the interpreter dispatch handles (the `case`
labels of `interpretNode`); every other tag falls to the default. -/
def interpHandledTypes : List String :=
  ["program", "function_declaration", "declaration", "assignment", "if_statement",
   "while_loop", "do_while_loop", "for_loop", "switch_statement", "return_statement",
   "break_statement", "continue_statement", "function_call", "binary_op", "unary_op",
   "identifier", "number", "preprocessor"]

/-- The operators the interpreter's `evaluateBinaryOp` switch handles;
any other operator falls to the `default: return 0`. -/
def evalBinHandledOps : List String :=
  ["+", "-", "*", "/", "%", "==", "!=", "<", ">", "<=", ">=", "&&", "||", "!"]

/-- An identifier node in the interpreter dialect (name under the
`identifier` property, as the `identifier` case of the dispatch reads). -/
def identRefNode (nm : String) : ASTNode := .mk "identifier" [("identifier", Field.str nm)]

/-- A `function_declaration` node in the interpreter dialect. -/
def funcDeclNode (nm : String) (ps : List Param) (body : List ASTNode) : ASTNode :=
  .mk "function_declaration"
    [("identifier", Field.str nm), ("parameters", Field.params ps),
     ("body", Field.nodes body)]

/-- A `return_statement` node carrying an expression. -/
def returnStmtNode (v : ASTNode) : ASTNode :=
  .mk "return_statement" [("value", Field.node v)]

/-- C9 input: `f` takes two parameters and prints the second, and is
called with a single argument, leaving `b` unbound. -/
def c9prog : ASTNode := programNode
  [funcDeclNode "f" [⟨"int", "a"⟩, ⟨"int", "b"⟩] [funcCallNode "printf" [identRefNode "b"]],
   funcCallNode "f" [numberNode 5]]

/-- C6 witness: a state with one registered function whose body creates
a local binding before returning 5. -/
def c6state : IState :=
  { initState with functions :=
      [(some "f",
        ⟨[], some (.inr [declNode "int" "a" (some (numberNode 1)) false,
          returnStmtNode (numberNode 5)]), "int"⟩)] }

/-! ### The transparent rational operations agree with the standard ones -/

theorem rOfInt_eq (n : Int) : rOfInt n = (n : Rat) := by
  rw [rOfInt, Rat.mkRat_eq_div]
  simp

theorem rAdd_eq (a b : Rat) : rAdd a b = a + b := by
  rw [rAdd, Rat.mkRat_eq_div]
  have ha : ((a.den : ℚ)) ≠ 0 := by
    exact_mod_cast a.den_nz
  have hb : ((b.den : ℚ)) ≠ 0 := by
    exact_mod_cast b.den_nz
  conv_rhs => rw [← Rat.num_div_den a, ← Rat.num_div_den b, div_add_div _ _ ha hb]
  push_cast
  ring_nf

theorem rSub_eq (a b : Rat) : rSub a b = a - b := by
  rw [rSub, Rat.mkRat_eq_div]
  have ha : ((a.den : ℚ)) ≠ 0 := by
    exact_mod_cast a.den_nz
  have hb : ((b.den : ℚ)) ≠ 0 := by
    exact_mod_cast b.den_nz
  conv_rhs => rw [← Rat.num_div_den a, ← Rat.num_div_den b, div_sub_div _ _ ha hb]
  push_cast
  ring_nf

theorem rMul_eq (a b : Rat) : rMul a b = a * b := by
  rw [rMul, Rat.mkRat_eq_div]
  conv_rhs => rw [← Rat.num_div_den a, ← Rat.num_div_den b, div_mul_div_comm]
  push_cast
  ring_nf

theorem rDiv_eq (a b : Rat) : rDiv a b = a / b := by
  have haux : ∀ q : ℚ, (q.num : ℚ) = q * q.den := by
    intro q
    have hd : ((q.den : ℚ)) ≠ 0 := by
      exact_mod_cast q.den_nz
    have h := Rat.num_div_den q
    rwa [div_eq_iff hd] at h
  by_cases hb : b = 0
  · subst hb
    rw [rDiv]
    norm_num [Rat.mkRat_eq_div]
  · have hbn : b.num ≠ 0 := Rat.num_ne_zero.mpr hb
    have ha : ((a.den : ℚ)) ≠ 0 := by
      exact_mod_cast a.den_nz
    have hq : ((b.num : ℚ)) ≠ 0 := by
      exact_mod_cast hbn
    rw [rDiv]
    split_ifs with hpos
    · have ht : (((b.num.toNat : ℕ)) : ℚ) = (b.num : ℚ) := by
        exact_mod_cast Int.toNat_of_nonneg hpos
      rw [Rat.mkRat_eq_div]
      push_cast [ht]
      rw [div_eq_div_iff (mul_ne_zero ha hq) hb, haux a, haux b]
      ring
    · have ht : ((((-b.num).toNat : ℕ)) : ℚ) = -(b.num : ℚ) := by
        exact_mod_cast Int.toNat_of_nonneg (by omega : (0:ℤ) ≤ -b.num)
      have hq2 : ((a.den : ℚ)) * -(b.num : ℚ) ≠ 0 := by
        apply mul_ne_zero ha
        simpa using hq
      rw [Rat.mkRat_eq_div]
      push_cast [ht]
      rw [div_eq_div_iff hq2 hb, haux a, haux b]
      ring

theorem rPow_eq (a : Rat) (n : Nat) : rPow a n = a ^ n := by
  induction n with
  | zero => simp [rPow]
  | succ m ih => rw [rPow, rMul_eq, ih, pow_succ]

/-- `Rat.floor` is the floor. -/
theorem ratFloor_eq (q : Rat) : Rat.floor q = ⌊q⌋ :=
  (Rat.floor_def' q).trans Rat.floor_def.symm

/-! ### Lexer lemmas -/

set_option maxHeartbeats 4000000 in
/-- No iteration of the tokenize loop emits an EOF token; EOF is pushed
only after the loop. -/
theorem lexStep_not_eof (pos : Nat) (c : Char) (cs : List Char) (t : Token)
    (h : (lexStep pos c cs).1 = some t) : t.type ≠ TokenType.EOF := by
  unfold lexStep at h
  simp only [apply_ite Prod.fst] at h
  by_cases k1 : isSpaceJS c = true
  · rw [if_pos k1] at h
    exact Option.noConfusion h
  rw [if_neg k1] at h
  by_cases k2 : c = '#'
  · rw [if_pos k2] at h
    have hh := Option.some.inj h
    subst hh
    simp
  rw [if_neg k2] at h
  by_cases k3 : c = '\"'
  · rw [if_pos k3] at h
    have hh := Option.some.inj h
    subst hh
    simp
  rw [if_neg k3] at h
  by_cases k4 : c = squote
  · rw [if_pos k4] at h
    have hh := Option.some.inj h
    subst hh
    simp
  rw [if_neg k4] at h
  by_cases k5 : (decide (c = '/') && decide (cs.head? = some '/')) = true
  · rw [if_pos k5] at h
    exact Option.noConfusion h
  rw [if_neg k5] at h
  by_cases k6 : (decide (c = '/') && decide (cs.head? = some '*')) = true
  · rw [if_pos k6] at h
    exact Option.noConfusion h
  rw [if_neg k6] at h
  by_cases k7 : isDigitJS c = true
  · rw [if_pos k7] at h
    have hh := Option.some.inj h
    subst hh
    simp
  rw [if_neg k7] at h
  by_cases k8 : isIdentStart c = true
  · rw [if_pos k8] at h
    have hh := Option.some.inj h
    subst hh
    split <;> simp
  rw [if_neg k8] at h
  by_cases k9 : (decide (c = '+') && decide (cs.head? = some '+')) = true
  · rw [if_pos k9] at h
    have hh := Option.some.inj h
    subst hh
    simp
  rw [if_neg k9] at h
  by_cases k10 : (decide (c = '-') && decide (cs.head? = some '-')) = true
  · rw [if_pos k10] at h
    have hh := Option.some.inj h
    subst hh
    simp
  rw [if_neg k10] at h
  by_cases k11 : (decide (c = '+') && decide (cs.head? = some '=')) = true
  · rw [if_pos k11] at h
    have hh := Option.some.inj h
    subst hh
    simp
  rw [if_neg k11] at h
  by_cases k12 : (decide (c = '-') && decide (cs.head? = some '=')) = true
  · rw [if_pos k12] at h
    have hh := Option.some.inj h
    subst hh
    simp
  rw [if_neg k12] at h
  by_cases k13 : (decide (c = '*') && decide (cs.head? = some '=')) = true
  · rw [if_pos k13] at h
    have hh := Option.some.inj h
    subst hh
    simp
  rw [if_neg k13] at h
  by_cases k14 : (decide (c = '/') && decide (cs.head? = some '=')) = true
  · rw [if_pos k14] at h
    have hh := Option.some.inj h
    subst hh
    simp
  rw [if_neg k14] at h
  by_cases k15 : (decide (c = '%') && decide (cs.head? = some '=')) = true
  · rw [if_pos k15] at h
    have hh := Option.some.inj h
    subst hh
    simp
  rw [if_neg k15] at h
  by_cases k16 : (decide (c = '-') && decide (cs.head? = some '>')) = true
  · rw [if_pos k16] at h
    have hh := Option.some.inj h
    subst hh
    simp
  rw [if_neg k16] at h
  by_cases k17 : (decide (c = '=') && decide (cs.head? = some '=')) = true
  · rw [if_pos k17] at h
    have hh := Option.some.inj h
    subst hh
    simp
  rw [if_neg k17] at h
  by_cases k18 : (decide (c = '!') && decide (cs.head? = some '=')) = true
  · rw [if_pos k18] at h
    have hh := Option.some.inj h
    subst hh
    simp
  rw [if_neg k18] at h
  by_cases k19 : (decide (c = '<') && decide (cs.head? = some '=')) = true
  · rw [if_pos k19] at h
    have hh := Option.some.inj h
    subst hh
    simp
  rw [if_neg k19] at h
  by_cases k20 : (decide (c = '>') && decide (cs.head? = some '=')) = true
  · rw [if_pos k20] at h
    have hh := Option.some.inj h
    subst hh
    simp
  rw [if_neg k20] at h
  by_cases k21 : (decide (c = '&') && decide (cs.head? = some '&')) = true
  · rw [if_pos k21] at h
    have hh := Option.some.inj h
    subst hh
    simp
  rw [if_neg k21] at h
  by_cases k22 : (decide (c = '|') && decide (cs.head? = some '|')) = true
  · rw [if_pos k22] at h
    have hh := Option.some.inj h
    subst hh
    simp
  rw [if_neg k22] at h
  by_cases k23 : c = '<'
  · rw [if_pos k23] at h
    have hh := Option.some.inj h
    subst hh
    simp
  rw [if_neg k23] at h
  by_cases k24 : c = '>'
  · rw [if_pos k24] at h
    have hh := Option.some.inj h
    subst hh
    simp
  rw [if_neg k24] at h
  by_cases k25 : c = '!'
  · rw [if_pos k25] at h
    have hh := Option.some.inj h
    subst hh
    simp
  rw [if_neg k25] at h
  by_cases k26 : c = '='
  · rw [if_pos k26] at h
    have hh := Option.some.inj h
    subst hh
    simp
  rw [if_neg k26] at h
  by_cases k27 : c = '&'
  · rw [if_pos k27] at h
    have hh := Option.some.inj h
    subst hh
    simp
  rw [if_neg k27] at h
  by_cases k28 : (decide (c = '+') || decide (c = '-') || decide (c = '*') || decide (c = '/') || decide (c = '%') || decide (c = '^')) = true
  · rw [if_pos k28] at h
    have hh := Option.some.inj h
    subst hh
    simp
  rw [if_neg k28] at h
  by_cases k29 : c = '('
  · rw [if_pos k29] at h
    have hh := Option.some.inj h
    subst hh
    simp
  rw [if_neg k29] at h
  by_cases k30 : c = ')'
  · rw [if_pos k30] at h
    have hh := Option.some.inj h
    subst hh
    simp
  rw [if_neg k30] at h
  by_cases k31 : c = '['
  · rw [if_pos k31] at h
    have hh := Option.some.inj h
    subst hh
    simp
  rw [if_neg k31] at h
  by_cases k32 : c = ']'
  · rw [if_pos k32] at h
    have hh := Option.some.inj h
    subst hh
    simp
  rw [if_neg k32] at h
  by_cases k33 : c = '\x7b'
  · rw [if_pos k33] at h
    have hh := Option.some.inj h
    subst hh
    simp
  rw [if_neg k33] at h
  by_cases k34 : c = '\x7d'
  · rw [if_pos k34] at h
    have hh := Option.some.inj h
    subst hh
    simp
  rw [if_neg k34] at h
  by_cases k35 : c = ';'
  · rw [if_pos k35] at h
    have hh := Option.some.inj h
    subst hh
    simp
  rw [if_neg k35] at h
  by_cases k36 : c = ','
  · rw [if_pos k36] at h
    have hh := Option.some.inj h
    subst hh
    simp
  rw [if_neg k36] at h
  by_cases k37 : c = '.'
  · rw [if_pos k37] at h
    have hh := Option.some.inj h
    subst hh
    simp
  rw [if_neg k37] at h
  have hh := Option.some.inj h
  subst hh
  simp

/-- Each iteration of the tokenize loop preserves the relation between
the position counter and the remaining input (the position advances by
exactly the number of characters consumed). -/
theorem tokenizeAux_eof (fuel : Nat) :
    ∀ (rest : List Char) (pos : Nat), rest.length ≤ fuel →
      ∃ ts, tokenizeAux fuel pos rest = ts ++ [⟨TokenType.EOF, "", pos + rest.length⟩] ∧
        ∀ t ∈ ts, t.type ≠ TokenType.EOF := by
  induction fuel with
  | zero =>
    intro rest pos h
    have : rest = [] := List.length_eq_zero.mp (Nat.le_zero.mp h)
    subst this
    exact ⟨[], by simp [tokenizeAux], by simp⟩
  | succ n ih =>
    intro rest pos h
    match rest with
    | [] => exact ⟨[], by simp [tokenizeAux], by simp⟩
    | c :: cs =>
      have hcs : cs.length ≤ n := by
        simpa using h
      have hlen : (cs.drop (lexStep pos c cs).2).length ≤ n := by
        simp only [List.length_drop]
        omega
      obtain ⟨ts', heq, hne⟩ :=
        ih (cs.drop (lexStep pos c cs).2)
          (pos + ((c :: cs).length - (cs.drop (lexStep pos c cs).2).length)) hlen
      have hpos : pos + ((c :: cs).length - (cs.drop (lexStep pos c cs).2).length) +
          (cs.drop (lexStep pos c cs).2).length = pos + (c :: cs).length := by
        simp only [List.length_drop, List.length_cons]
        omega
      refine ⟨(lexStep pos c cs).1.toList ++ ts', ?_, ?_⟩
      · rw [tokenizeAux, heq, hpos, List.append_assoc]
      · intro t ht
        rcases List.mem_append.mp ht with h1 | h2
        · exact lexStep_not_eof pos c cs t (by
            cases hop : (lexStep pos c cs).1 with
            | none => simp [hop] at h1
            | some tok =>
              simp only [hop, Option.toList_some, List.mem_singleton] at h1
              subst h1
              rfl)
        · exact hne t h2

/-- C4: for every input string, `tokenize` returns (it is a total
function of the embedding with exact fuel), and its output is a list of
non-EOF tokens followed by exactly one EOF token whose offset equals the
length of the trimmed input — unterminated comments, string/char
literals and preprocessor lines included, since the statement quantifies
over all strings. -/
theorem c4_tokenize_total_eof (s : String) :
    ∃ ts, tokenize s = ts ++ [⟨TokenType.EOF, "", (trimJS s.toList).length⟩] ∧
      ∀ t ∈ ts, t.type ≠ TokenType.EOF := by
  have h := tokenizeAux_eof (trimJS s.toList).length (trimJS s.toList) 0 le_rfl
  simpa [tokenize] using h

/-! ### C7: power parses right-associatively and evaluates to 512 -/

/-- C7: `parse("2 ^ 3 ^ 2")` succeeds with the `^` operators grouped to
the right (`2 ^ (3 ^ 2)`, spelled out in `c7tree`), and the pure
arithmetic evaluator yields 512 on that tree. -/
theorem c7_power_right_assoc :
    parseExpression 30 "2 ^ 3 ^ 2" = some ⟨true, some c7tree, none⟩ ∧
    evaluateAST 10 c7tree = some (.ok (Value.num 512)) :=
  ⟨rfl, rfl⟩

/-! ### C2: the main-function program executes to nothing -/

/-- C2 (code bug): the program parses to `c2tree`, whose top statement
is a node of type `function`; the interpreter dispatch only handles
`function_declaration`, so the whole program is silently skipped and
`executeProgram` yields empty output, a `null` return value and no
variables — not `output == ["8"]` and `returnValue == 15` as the claim
states. -/
theorem c2_main_program_inert :
    parseExpression 30 c2src = some ⟨true, some c2tree, none⟩ ∧
    executeProgram 30 c2tree = some ⟨[], Value.vnull, [], none⟩ :=
  ⟨rfl, rfl⟩

/-! ### C1: no step ceiling — `while(1){}` diverges at every fuel -/

/-- The `while (1) {}` loop node as the parser produces it. -/
def whileTrueNode : ASTNode := whileNode (numberNode 1) (blockNode [])

/-- One spin of the source `while_loop` case on `while(1){}` leaves the
fresh interpreter state untouched, so the loop never exits: no fuel
bound suffices. -/
theorem whileTrue_loop_diverges (fuel : Nat) :
    whileLoopI fuel initState (some (.inl (numberNode 1))) (some (.inl (blockNode []))) =
      none := by
  induction fuel with
  | zero => rfl
  | succ n ih =>
    match n, ih with
    | 0, _ => rfl
    | 1, _ => rfl
    | m + 2, ih => exact ih

/-- `interpretNode` on the `while(1){}` loop node never returns. -/
theorem interpretNode_whileTrue (n : Nat) :
    interpretNode n initState (.inl whileTrueNode) = none := by
  match n with
  | 0 => rfl
  | k + 1 =>
    show whileLoopI k initState (some (.inl (numberNode 1))) (some (.inl (blockNode []))) =
      none
    exact whileTrue_loop_diverges k

/-- `interpretNode` on the whole `while(1){}` program never returns. -/
theorem interpretNode_whileTrueProg (n : Nat) :
    interpretNode n initState (.inl whileTrueProg) = none := by
  match n with
  | 0 => rfl
  | 1 => rfl
  | 2 => rfl
  | k + 3 =>
    have h1 : interpretNode (k + 3) initState (.inl whileTrueProg) =
        (match interpretNode k initState (.inl whileTrueNode) with
         | none => none
         | some (.error e, st1) => some (.error e, st1)
         | some (.ok v, st1) => interpSeq k st1 [] v) := rfl
    rw [h1, interpretNode_whileTrue k]

/-- C1 (code bug): the source text `while(1){}` parses to
`whileTrueProg`, and `executeProgram` on it returns no `ExecutionResult`
at any recursion-depth bound: the interpreter has no step counter at
all, so a non-terminating loop hangs instead of producing the
resource-exhaustion error the specification mandates. -/
theorem c1_no_step_ceiling :
    parseExpression 30 c1src = some ⟨true, some whileTrueProg, none⟩ ∧
    ∀ fuel, executeProgram fuel whileTrueProg = none := by
  refine ⟨rfl, fun fuel => ?_⟩
  unfold executeProgram execute
  rw [interpretNode_whileTrueProg fuel]

/-! ### C5: trailing tokens — error appended, but the tree is dropped -/

/-- C5 (counterexample): on the token stream of `"2 3"` the expression
production completes the tree `2`, the cursor is not at EOF, and
`Parser.parse` appends the unexpected-token error — but the returned
`ParseResult` is `success = false` with errors only: the `tree` property
is `none`, refuting the claim that the result still carries the
completed tree. -/
theorem c5_counterexample :
    parseTokens 30 (tokenize "2 3") =
      some ⟨false, none,
        some [⟨"Unexpected token \x273\x27", 2,
          "Check for missing operators, semicolons, or braces"⟩]⟩ ∧
    (parseTokens 30 (tokenize "2 3")).bind ParseResult.tree = none :=
  ⟨rfl, rfl⟩

/-- C5 (amended): whenever the top production completes with the cursor
not at EOF (and the stream passed the invalid-token check), `parse`
appends the unexpected-token error for the trailing token and returns a
failure result carrying the accumulated errors and no tree. -/
theorem c5_trailing_token_error (fuel : Nat) (ts : List Token) (tree : ASTNode)
    (st1 : PState)
    (hinv : ts.find? (fun t => t.type == TokenType.INVALID) = none)
    (htop : topProduction fuel ts = some (.ok tree, st1))
    (heof : (currentTokenOf st1).type ≠ TokenType.EOF) :
    parseTokens fuel ts =
      some ⟨false, none, some (st1.errors ++ [unexpectedTokErr (currentTokenOf st1)])⟩ := by
  unfold parseTokens
  rw [hinv, htop]
  simp [heof]

/-- C5 witness: the amended statement applied to the `"2 3"` stream. -/
theorem c5_trailing_token_error_witness :
    parseTokens 30 (tokenize "2 3") =
      some ⟨false, none, some [unexpectedTokErr ⟨TokenType.NUMBER, "3", 2⟩]⟩ := by
  have h := c5_trailing_token_error 30 (tokenize "2 3") (numberNode 2)
    ⟨tokenize "2 3", 1, []⟩ rfl rfl (by decide)
  simpa using h

/-! ### C3: interpreter division floors, it does not truncate toward zero -/

/-- C3 (counterexample): the interpreter's `/` is `Math.floor(left /
right)`.  On operands −7 (built as `0 - 7`, which is how a negative
operand reaches the division) and 2 the result is −4, not the −3 the
claim (truncation toward zero) requires. -/
theorem c3_counterexample :
    interpretNode 10 initState
        (.inl (binopNode "/" (binopNode "-" (numberNode 0) (numberNode 7)) (numberNode 2))) =
      some (.ok (Value.num (-4)), initState) ∧
    (-4 : Rat) ≠ -3 :=
  ⟨rfl, by norm_num⟩

/-- C3 (amended): for numeric operands with a nonzero divisor, the
interpreter's binary `/` yields the floor of the real quotient
(rounding toward negative infinity), the state unchanged. -/
theorem c3_division_floors (fuel : Nat) (st : IState) (x y : Rat) (hy : y ≠ 0) :
    interpretNode (fuel + 3) st (.inl (binopNode "/" (numberNode x) (numberNode y))) =
      some (.ok (Value.num ((⌊x / y⌋ : Int) : Rat)), st) := by
  have h1 : interpretNode (fuel + 3) st
      (.inl (binopNode "/" (numberNode x) (numberNode y))) =
      some (.ok (applyBinOp (some "/") (.num x) (.num y)), st) := rfl
  have h2 : applyBinOp (some "/") (.num x) (.num y) =
      (if y = 0 then Value.nan else Value.num (rOfInt (Rat.floor (rDiv x y)))) := rfl
  rw [h1, h2, if_neg hy, rOfInt_eq, rDiv_eq, ratFloor_eq]

/-- C3 witness: the amended statement at −7 and 2 gives −4. -/
theorem c3_division_floors_witness :
    (2 : Rat) ≠ 0 ∧
    interpretNode 3 initState
        (.inl (binopNode "/" (numberNode (-7)) (numberNode 2))) =
      some (.ok (Value.num (-4)), initState) := by
  refine ⟨by norm_num, ?_⟩
  have h := c3_division_floors 0 initState (-7) 2 (by norm_num)
  have hf : ((⌊(-7 : Rat) / 2⌋ : Int) : Rat) = -4 := by
    norm_num
  rw [hf] at h
  exact h

/-! ### C6: a completed user-function call restores the variable map -/

/-- C6: `callFunction` snapshots the whole variable mapping before
evaluating the arguments and unconditionally reinstates it on the
success path, so any user-defined call that completes leaves the
caller's variable mapping exactly as it was. -/
theorem c6_call_restores_variables (fuel : Nat) (st : IState) (name : Option String)
    (args : List ASTNode) (v : Value) (st1 : IState)
    (hp : name ≠ some "printf")
    (h : callFunction fuel st name args = some (.ok v, st1)) :
    st1.«variables» = st.«variables» := by
  match fuel with
  | 0 => exact Option.noConfusion h
  | n + 1 =>
    unfold callFunction at h
    rw [if_neg hp] at h
    repeat'
      first
        | split at h
        | simp only [] at h
    all_goals
      first
        | exact Option.noConfusion h
        | (simp only [Option.some.injEq, Prod.mk.injEq] at h
           first
             | exact absurd h.1 (fun hc => Except.noConfusion hc)
             | rw [← h.2])

/-- C6 witness: calling the registered `f` (whose body creates a local
`a` before returning 5) from `c6state` completes with value 5 and the
state — variables included — exactly restored. -/
theorem c6_call_restores_variables_witness :
    callFunction 10 c6state (some "f") [] = some (.ok (Value.num 5), c6state) ∧
    c6state.«variables» = c6state.«variables» :=
  ⟨rfl, c6_call_restores_variables 10 c6state (some "f") [] (Value.num 5) c6state
    (by simp) rfl⟩

/-! ### C8: node types outside the dispatch are silently skipped -/

/-- A node whose type tag is not among the dispatch labels falls to the
default case: `null` is returned and the state is untouched. -/
theorem interpretNode_default (fuel : Nat) (st : IState) (nd : ASTNode)
    (h : nd.typeOf ∉ interpHandledTypes) :
    interpretNode (fuel + 1) st (.inl nd) = some (.ok Value.vnull, st) := by
  have h1 : nd.typeOf ≠ "program" := fun e => h (by rw [e]; decide)
  have h2 : nd.typeOf ≠ "function_declaration" := fun e => h (by rw [e]; decide)
  have h3 : nd.typeOf ≠ "declaration" := fun e => h (by rw [e]; decide)
  have h4 : nd.typeOf ≠ "assignment" := fun e => h (by rw [e]; decide)
  have h5 : nd.typeOf ≠ "if_statement" := fun e => h (by rw [e]; decide)
  have h6 : nd.typeOf ≠ "while_loop" := fun e => h (by rw [e]; decide)
  have h7 : nd.typeOf ≠ "do_while_loop" := fun e => h (by rw [e]; decide)
  have h8 : nd.typeOf ≠ "for_loop" := fun e => h (by rw [e]; decide)
  have h9 : nd.typeOf ≠ "switch_statement" := fun e => h (by rw [e]; decide)
  have h10 : nd.typeOf ≠ "return_statement" := fun e => h (by rw [e]; decide)
  have h11 : nd.typeOf ≠ "break_statement" := fun e => h (by rw [e]; decide)
  have h12 : nd.typeOf ≠ "continue_statement" := fun e => h (by rw [e]; decide)
  have h13 : nd.typeOf ≠ "function_call" := fun e => h (by rw [e]; decide)
  have h14 : nd.typeOf ≠ "binary_op" := fun e => h (by rw [e]; decide)
  have h15 : nd.typeOf ≠ "unary_op" := fun e => h (by rw [e]; decide)
  have h16 : nd.typeOf ≠ "identifier" := fun e => h (by rw [e]; decide)
  have h17 : nd.typeOf ≠ "number" := fun e => h (by rw [e]; decide)
  have h18 : nd.typeOf ≠ "preprocessor" := fun e => h (by rw [e]; decide)
  simp only [interpretNode, if_neg h1, if_neg h2, if_neg h3, if_neg h4, if_neg h5,
    if_neg h6, if_neg h7, if_neg h8, if_neg h9, if_neg h10, if_neg h11, if_neg h12,
    if_neg h13, if_neg h14, if_neg h15, if_neg h16, if_neg h17, if_neg h18]

/-- C8: (i) any node type outside the handled set evaluates to `null`
with the state unchanged; (ii) the parser-produced statement tags
`block`, `switch`, `do_while`, `return`, `break`, `continue`, `postfix`,
`prefix` and `function` are all outside that set; (iii) a statement
sequence simply steps over such a node and continues; (iv) `execute` on
such a node reports success with no error field. -/
theorem c8_unhandled_types_skipped :
    (∀ (fuel : Nat) (st : IState) (nd : ASTNode), nd.typeOf ∉ interpHandledTypes →
        interpretNode (fuel + 1) st (.inl nd) = some (.ok Value.vnull, st)) ∧
    (∀ t ∈ ["block", "switch", "do_while", "return", "break", "continue",
        "postfix", "prefix", "function"], t ∉ interpHandledTypes) ∧
    (∀ (fuel : Nat) (st : IState) (nd : ASTNode) (rest : List ASTNode) (lastValue : Value),
        nd.typeOf ∉ interpHandledTypes →
        st.returnValue = Value.vnull → st.breakFlag = false → st.continueFlag = false →
        interpSeq (fuel + 2) st (nd :: rest) lastValue =
          interpSeq (fuel + 1) st rest Value.vnull) ∧
    (∀ (fuel : Nat) (nd : ASTNode), nd.typeOf ∉ interpHandledTypes →
        execute (fuel + 1) nd = some ⟨[], Value.vnull, [], none⟩) := by
  refine ⟨interpretNode_default, by decide, ?_, ?_⟩
  · intro fuel st nd rest lastValue h hr hb hc
    simp only [interpSeq, hr, hb, hc, interpretNode_default fuel st nd h]
    rw [if_neg (by simp)]
  · intro fuel nd h
    unfold execute
    rw [interpretNode_default fuel initState nd h]
    rfl

/-- C8 witness: the parser-produced `break` statement node is skipped. -/
theorem c8_unhandled_types_skipped_witness :
    interpretNode 1 initState (.inl breakNode) = some (.ok Value.vnull, initState) :=
  c8_unhandled_types_skipped.1 0 initState breakNode (by decide)

/-! ### C9: missing and falsy call arguments are bound to 0 -/

/-- One step of `Map.get` on a nonempty backing list. -/
theorem assocGet_cons {β : Type} (x : VKey × β) (l : List (VKey × β)) (k : VKey) :
    assocGet (x :: l) k = if x.1 == k then some x.2 else assocGet l k := by
  by_cases hx : x.1 == k
  · simp [assocGet, List.find?, hx]
  · simp [assocGet, List.find?, hx]

/-- `Map.get` after the in-place-update branch of `Map.set`, same key. -/
theorem assocGet_map_set_self {β : Type} (k : VKey) (v : β) :
    ∀ (m : List (VKey × β)), m.any (fun p => p.1 == k) = true →
      assocGet (m.map (fun p => if p.1 == k then (k, v) else p)) k = some v
  | [], h => by simp at h
  | p :: rest, h => by
    by_cases hp : p.1 == k
    · simp only [List.map_cons, if_pos hp]
      rw [assocGet_cons]
      simp
    · simp only [List.map_cons, if_neg hp]
      rw [assocGet_cons, if_neg hp]
      rw [List.any_cons, Bool.or_eq_true] at h
      rcases h with h1 | h1
      · exact absurd h1 hp
      · exact assocGet_map_set_self k v rest h1

/-- `Map.get` after the append branch of `Map.set`, same key. -/
theorem assocGet_append_self {β : Type} (k : VKey) (v : β) :
    ∀ (m : List (VKey × β)), m.any (fun p => p.1 == k) = false →
      assocGet (m ++ [(k, v)]) k = some v
  | [], _ => by
    rw [List.nil_append, assocGet_cons]
    simp
  | p :: rest, h => by
    rw [List.any_cons, Bool.or_eq_false_iff] at h
    rw [List.cons_append, assocGet_cons, if_neg (by simp [h.1])]
    exact assocGet_append_self k v rest h.2

/-- `Map.get` after `Map.set` at the same key yields the new value. -/
theorem assocGet_set_self {β : Type} (m : List (VKey × β)) (k : VKey) (v : β) :
    assocGet (assocSet m k v) k = some v := by
  unfold assocSet
  by_cases hany : m.any (fun p => p.1 == k)
  · rw [if_pos hany]
    exact assocGet_map_set_self k v m hany
  · rw [if_neg hany]
    refine assocGet_append_self k v m ?_
    rw [← Bool.not_eq_true]
    exact hany

/-- The in-place-update branch of `Map.set` leaves other keys alone. -/
theorem assocGet_map_set_other {β : Type} (k kx : VKey) (v : β) (hne : kx ≠ k) :
    ∀ (m : List (VKey × β)),
      assocGet (m.map (fun p => if p.1 == k then (k, v) else p)) kx = assocGet m kx
  | [] => rfl
  | p :: rest => by
    have hrec := assocGet_map_set_other k kx v hne rest
    by_cases hp : p.1 == k
    · have hpk : p.1 = k := by simpa using hp
      have h1 : ((k : VKey) == kx) = false := by
        rw [beq_eq_false_iff_ne]
        exact Ne.symm hne
      simp only [List.map_cons, if_pos hp]
      rw [assocGet_cons, assocGet_cons]
      rw [if_neg (by simp [h1]), if_neg (by simp [hpk, h1])]
      exact hrec
    · simp only [List.map_cons, if_neg hp]
      rw [assocGet_cons, assocGet_cons]
      by_cases hq : p.1 == kx
      · rw [if_pos hq, if_pos hq]
      · rw [if_neg hq, if_neg hq]
        exact hrec

/-- The append branch of `Map.set` leaves other keys alone. -/
theorem assocGet_append_other {β : Type} (k kx : VKey) (v : β) (hne : kx ≠ k) :
    ∀ (m : List (VKey × β)), assocGet (m ++ [(k, v)]) kx = assocGet m kx
  | [] => by
    have h1 : ((k : VKey) == kx) = false := by
      rw [beq_eq_false_iff_ne]
      exact Ne.symm hne
    rw [List.nil_append, assocGet_cons, if_neg (by simp [h1])]
  | p :: rest => by
    rw [List.cons_append, assocGet_cons, assocGet_cons]
    by_cases hq : p.1 == kx
    · rw [if_pos hq, if_pos hq]
    · rw [if_neg hq, if_neg hq]
      exact assocGet_append_other k kx v hne rest

/-- `Map.get` after `Map.set` at a different key is unchanged. -/
theorem assocGet_set_other {β : Type} (m : List (VKey × β)) (k kx : VKey) (v : β)
    (hne : kx ≠ k) : assocGet (assocSet m k v) kx = assocGet m kx := by
  unfold assocSet
  split
  · exact assocGet_map_set_other k kx v hne m
  · exact assocGet_append_other k kx v hne m

/-- Binding a parameter list never disturbs a variable whose name is not
among the parameters. -/
theorem bindParams_notmem (nm : String) :
    ∀ (params : List Param) (vars : List (VKey × Value)) (vals : List Value) (j : Nat),
      nm ∉ params.map Param.name →
      assocGet (bindParams vars params vals j) (some nm) = assocGet vars (some nm)
  | [], _, _, _, _ => rfl
  | p :: rest, vars, vals, j, h => by
    simp only [List.map_cons, List.mem_cons, not_or] at h
    simp only [bindParams]
    rw [bindParams_notmem nm rest _ vals (j + 1) h.2]
    exact assocGet_set_other vars (some p.name) (some nm) _ (by simpa using h.1)

/-- The heart of C9: if the `i`-th parameter has no corresponding truthy
argument (missing, or falsy like `0`), the `|| 0` in `callFunction`
binds it to `0` — for any distinct parameter names and any start
offset. -/
theorem bindParams_get :
    ∀ (params : List Param) (vars : List (VKey × Value)) (vals : List Value)
      (j i : Nat) (p : Param),
      (params.map Param.name).Nodup →
      params.get? i = some p →
      jsTruthy ((vals.get? (j + i)).getD Value.undef) = false →
      assocGet (bindParams vars params vals j) (some p.name) = some (Value.num 0)
  | [], _, _, _, _, _, _, hget, _ => by simp at hget
  | q :: rest, vars, vals, j, i, p, hnd, hget, hfal => by
    simp only [List.map_cons, List.nodup_cons] at hnd
    cases i with
    | zero =>
      have hpq : q = p := by simpa using hget
      subst hpq
      simp only [bindParams]
      rw [bindParams_notmem q.name rest _ vals (j + 1) hnd.1]
      simp only [Nat.add_zero] at hfal
      have hv : jsOr ((vals.get? j).getD Value.undef) (Value.num 0) = Value.num 0 := by
        unfold jsOr
        rw [if_neg]
        rw [hfal]
        simp
      rw [hv]
      exact assocGet_set_self vars (some q.name) (Value.num 0)
    | succ ix =>
      simp only [bindParams]
      have hfal2 : jsTruthy ((vals.get? ((j + 1) + ix)).getD Value.undef) = false := by
        have hx : (j + 1) + ix = j + (ix + 1) := by omega
        rw [hx]
        exact hfal
      exact bindParams_get rest _ vals (j + 1) ix p hnd.2 (by simpa using hget) hfal2

/-- C9: (i) for any environment, parameter list with distinct names and
argument list, a parameter whose argument is missing or falsy is bound
to `0` by `callFunction`'s `evaluatedArgs[index] || 0`; (ii) the
concrete two-parameter function of `c9prog` called with one argument
prints `0` for the unsupplied parameter. -/
theorem c9_missing_args_bound_zero :
    (∀ (vars : List (VKey × Value)) (params : List Param) (vals : List Value)
        (i : Nat) (p : Param),
        (params.map Param.name).Nodup →
        params.get? i = some p →
        jsTruthy ((vals.get? i).getD Value.undef) = false →
        assocGet (bindParams vars params vals 0) (some p.name) = some (Value.num 0)) ∧
    executeProgram 20 c9prog = some ⟨["0"], Value.vnull, [], none⟩ := by
  constructor
  · intro vars params vals i p hnd hget hfal
    exact bindParams_get params vars vals 0 i p hnd hget (by simpa using hfal)
  · rfl

/-- C9 witness: two declared parameters, one supplied argument; the
second parameter reads back as `0`. -/
theorem c9_missing_args_bound_zero_witness :
    assocGet (bindParams [] [⟨"int", "a"⟩, ⟨"int", "b"⟩] [Value.num 5] 0) (some "b") =
      some (Value.num 0) :=
  c9_missing_args_bound_zero.1 [] [⟨"int", "a"⟩, ⟨"int", "b"⟩] [Value.num 5] 1
    ⟨"int", "b"⟩ (by decide) rfl rfl

/-! ### C10: unknown binary operators yield 0 in the interpreter -/

/-- C10: (i) any operator outside the handled set makes the
interpreter's `evaluateBinaryOp` fall to `default: return 0`, whatever
the operands; (ii) in particular `2 ^ 3` interpreted as a `binary_op`
node evaluates to `0` in any state; (iii) the pure evaluator instead
computes `2 ^ 3 = 8`; (iv) the pure evaluator throws on its own unknown
operators (here `&&`) rather than returning 0. -/
theorem c10_unknown_operator_zero :
    (∀ (op : Option String) (l r : Value),
        (∀ s ∈ evalBinHandledOps, op ≠ some s) → applyBinOp op l r = Value.num 0) ∧
    (∀ (st : IState),
        interpretNode 3 st (.inl (binopNode "^" (numberNode 2) (numberNode 3))) =
          some (.ok (Value.num 0), st)) ∧
    evaluateAST 5 (binopNode "^" (numberNode 2) (numberNode 3)) = some (.ok (Value.num 8)) ∧
    evaluateAST 5 (binopNode "&&" (numberNode 1) (numberNode 1)) =
      some (.error "Unknown operator: &&") := by
  refine ⟨?_, fun st => rfl, rfl, rfl⟩
  intro op l r h
  have h1 := h "+" (by decide)
  have h2 := h "-" (by decide)
  have h3 := h "*" (by decide)
  have h4 := h "/" (by decide)
  have h5 := h "%" (by decide)
  have h6 := h "==" (by decide)
  have h7 := h "!=" (by decide)
  have h8 := h "<" (by decide)
  have h9 := h ">" (by decide)
  have h10 := h "<=" (by decide)
  have h11 := h ">=" (by decide)
  have h12 := h "&&" (by decide)
  have h13 := h "||" (by decide)
  have h14 := h "!" (by decide)
  simp only [applyBinOp, if_neg h1, if_neg h2, if_neg h3, if_neg h4, if_neg h5,
    if_neg h6, if_neg h7, if_neg h8, if_neg h9, if_neg h10, if_neg h11, if_neg h12,
    if_neg h13, if_neg h14]

/-- C10 witness: `^` is outside the handled set, so any operands give 0. -/
theorem c10_unknown_operator_zero_witness :
    applyBinOp (some "^") Value.vnull Value.vnull = Value.num 0 :=
  c10_unknown_operator_zero.1 (some "^") Value.vnull Value.vnull (by decide)

end MiniC
